import Mathlib

/-
Verification of the temporal label model and schema-validation engine of
eta (eta/core/events.py) against its natural-language specification.

The Python classes `DetectedEvent`, `DetectedEventContainer`, `VideoEvent`,
`VideoEventContainer`, `EventSchema`, `EventContainerSchema` and
`VideoEventFrameRenderer` are embedded shallowly as Lean structures and
functions.  Python methods that mutate their receiver become functions
returning the new receiver; methods that can raise return `Except`.  For a
mutating method that can raise, the error value carries the state of the
receiver at the moment the exception left the method, so that claims about
partial mutation can be stated.

Collaborator classes that live in this repository but outside src/
(eta.core.data, eta.core.objects, eta.core.labels, eta.core.frameutils)
are modelled from the spec; each such definition says so in its doc
comment.  Error messages carried by Python exceptions are elided: only the
exception class matters to the claims.
-/

namespace Eta

/-- The Python exception classes relevant to events.py: `LabelsSchemaError`
(with its subclasses `EventSchemaError` and `EventContainerSchemaError`),
`ValueError`, and `AttributeError` (raised by a failed attribute lookup).
Messages are elided. -/
inductive PyErr where
  | schemaError
  | valueError
  | attributeError
deriving DecidableEq

/-- Modelled from the spec: an `Attribute` (eta.core.data, not under src/)
is a named value; the model uses string values. -/
structure Attribute where
  name : String
  value : String
deriving DecidableEq

/-- Modelled from the spec: `AttributeContainer` (eta.core.data, not under
src/) is an ordered attribute set; `add` appends, `add_container`
concatenates, `prepend_container` concatenates on the left. -/
abbrev AttributeContainer := List Attribute

/-- Modelled from the spec: a `BoundingBox` (eta.core.geometry, not under
src/) is an opaque geometry value whose dictionary form round-trips
exactly. -/
structure BoundingBox where
  data : String
deriving DecidableEq

/-- Modelled from the spec: a serialized numpy mask (not under src/),
opaque to this core; its dictionary form round-trips exactly. -/
structure Mask where
  data : String
deriving DecidableEq

/-- Lookup in a Python-dict-like association list: the value at the first
matching key. -/
def lookupKey {κ α : Type} [DecidableEq κ] : List (κ × α) → κ → Option α
  | [], _ => none
  | (k, v) :: rest, f => if k = f then some v else lookupKey rest f

/-- Python dict assignment `d[k] = v`: replace the first binding of `k`,
or append a new binding (insertion order is preserved). -/
def setKey {κ α : Type} [DecidableEq κ] : List (κ × α) → κ → α → List (κ × α)
  | [], k, v => [(k, v)]
  | (k1, v1) :: rest, k, v =>
    if k1 = k then (k, v) :: rest else (k1, v1) :: setKey rest k v

/-- In-place update of the value at the first binding of `k` (Python
`d[k].method(...)`); no-op when `k` is absent. -/
def modifyKey {κ α : Type} [DecidableEq κ] : List (κ × α) → κ → (α → α) → List (κ × α)
  | [], _, _ => []
  | (k1, v1) :: rest, k, g =>
    if k1 = k then (k1, g v1) :: rest else (k1, v1) :: modifyKey rest k g

/-- Insert a frame number into an ascending duplicate-free list. -/
def insFrame (n : Nat) : List Nat → List Nat
  | [] => [n]
  | m :: rest =>
    if n < m then n :: m :: rest
    else if n = m then m :: rest
    else m :: insFrame n rest

/-- Modelled from the spec: `FrameRanges` (eta.core.frameutils, not under
src/) is a sorted set of frame numbers supporting membership, ascending
iteration, and union; here represented as the ascending duplicate-free
list of its members. -/
def frameSetOf (l : List Nat) : List Nat := l.foldr insFrame []

/-- Modelled from the spec: a `DetectedObject` (eta.core.objects, not
under src/) carries a label, an optional frame number, and frame-level
attributes. -/
structure DetectedObject where
  label : Option String := none
  frame_number : Option Nat := none
  attrs : AttributeContainer := []
deriving DecidableEq

/-- Whether the DetectedObject has a frame number (collaborator predicate,
modelled from the spec). -/
def DetectedObject.has_frame_number (o : DetectedObject) : Bool :=
  o.frame_number.isSome

/-- Modelled from the spec: `DetectedObjectContainer` (eta.core.objects,
not under src/), an ordered collection of `DetectedObject`s. -/
abbrev DetectedObjectContainer := List DetectedObject

/-- Modelled from the spec: a `VideoObject` (eta.core.objects, not under
src/) is a temporal object with its own support, uuid, attributes and a
sparse frame map of per-frame detections. -/
structure VideoObject where
  label : Option String := none
  uuid : Option String := none
  support : List Nat := []
  attrs : AttributeContainer := []
  frames : List (Nat × DetectedObject) := []
deriving DecidableEq

/-- Modelled from the spec: `VideoObjectContainer` (eta.core.objects, not
under src/), an ordered collection of `VideoObject`s. -/
abbrev VideoObjectContainer := List VideoObject

/-- `DetectedEvent` (events.py line 34): a single frame's worth of event
labeling.  Constructor defaults mirror the Python constructor: all fields
optional, `attrs`/`objects` default to empty containers.  The constant
`type` tag (always the fully-qualified class name) is elided. -/
structure DetectedEvent where
  label : Option String := none
  bounding_box : Option BoundingBox := none
  mask : Option Mask := none
  confidence : Option Rat := none
  top_k_probs : Option (List (String × Rat)) := none
  index : Option Int := none
  frame_number : Option Nat := none
  attrs : AttributeContainer := []
  objects : DetectedObjectContainer := []
deriving DecidableEq

/-- `DetectedEvent.has_label`. -/
def DetectedEvent.has_label (e : DetectedEvent) : Bool := e.label.isSome

/-- `DetectedEvent.has_bounding_box`. -/
def DetectedEvent.has_bounding_box (e : DetectedEvent) : Bool := e.bounding_box.isSome

/-- `DetectedEvent.has_mask`. -/
def DetectedEvent.has_mask (e : DetectedEvent) : Bool := e.mask.isSome

/-- `DetectedEvent.has_frame_number`. -/
def DetectedEvent.has_frame_number (e : DetectedEvent) : Bool := e.frame_number.isSome

/-- `DetectedEvent.has_attributes`: whether the attribute container is
nonempty (Python truthiness of the container). -/
def DetectedEvent.has_attributes (e : DetectedEvent) : Bool := !e.attrs.isEmpty

/-- `DetectedEvent.has_objects`. -/
def DetectedEvent.has_objects (e : DetectedEvent) : Bool := !e.objects.isEmpty

/-- `DetectedEvent.is_empty`: no labels of any kind. -/
def DetectedEvent.is_empty (e : DetectedEvent) : Bool :=
  !(e.has_label || e.has_bounding_box || e.has_mask
    || e.has_attributes || e.has_objects)

/-- `DetectedEvent.add_attribute`. -/
def DetectedEvent.add_attribute (e : DetectedEvent) (attr : Attribute) : DetectedEvent :=
  { e with attrs := e.attrs ++ [attr] }

/-- `DetectedEvent.add_attributes`. -/
def DetectedEvent.add_attributes (e : DetectedEvent) (attrs : AttributeContainer) : DetectedEvent :=
  { e with attrs := e.attrs ++ attrs }

/-- `DetectedEvent.add_object`. -/
def DetectedEvent.add_object (e : DetectedEvent) (obj : DetectedObject) : DetectedEvent :=
  { e with objects := e.objects ++ [obj] }

/-- `DetectedEvent.add_objects`. -/
def DetectedEvent.add_objects (e : DetectedEvent) (objs : DetectedObjectContainer) : DetectedEvent :=
  { e with objects := e.objects ++ objs }

/-- `VideoEvent` (events.py line 379): a spatiotemporal event.  `frames`
is the sparse frame-number-to-`DetectedEvent` mapping, embedded as an
insertion-ordered association list (the Python dict).  `child_objects` and
`child_events` are uuid sets.  `frozen_support` is the optional explicit
support installed by `HasLabelsSupport` (modelled from the spec: the
`support` property returns the frozen support when present and otherwise
computes it).  The constant `type` tag is elided. -/
structure VideoEvent where
  label : Option String := none
  confidence : Option Rat := none
  index : Option Int := none
  uuid : Option String := none
  attrs : AttributeContainer := []
  objects : VideoObjectContainer := []
  frames : List (Nat × DetectedEvent) := []
  child_objects : Finset String := ∅
  child_events : Finset String := ∅
  frozen_support : Option (List Nat) := none
deriving DecidableEq

/-- `VideoEvent.is_empty`: a VideoEvent is never empty (events.py line
436). -/
def VideoEvent.is_empty (_e : VideoEvent) : Bool := false

/-- `VideoEvent.has_event_attributes`. -/
def VideoEvent.has_event_attributes (e : VideoEvent) : Bool := !e.attrs.isEmpty

/-- `VideoEvent.has_video_objects`. -/
def VideoEvent.has_video_objects (e : VideoEvent) : Bool := !e.objects.isEmpty

/-- `VideoEvent.is_support_frozen` (HasLabelsSupport, modelled from the
spec). -/
def VideoEvent.is_support_frozen (e : VideoEvent) : Bool := e.frozen_support.isSome

/-- `VideoEvent._compute_support` (events.py line 876): the union of the
frame keys with the support of every temporal object. -/
def VideoEvent._compute_support (e : VideoEvent) : List Nat :=
  frameSetOf (e.frames.map Prod.fst ++ (e.objects.map VideoObject.support).flatten)

/-- The `support` property (HasLabelsSupport, modelled from the spec):
the frozen support when one was supplied, otherwise the computed
support. -/
def VideoEvent.support (e : VideoEvent) : List Nat :=
  match e.frozen_support with
  | some s => s
  | none => e._compute_support

/-- `VideoEvent.iter_detections` (events.py line 499): the stored
`DetectedEvent`s, traversed in ascending frame order. -/
def VideoEvent.iter_detections (e : VideoEvent) : List DetectedEvent :=
  (frameSetOf (e.frames.map Prod.fst)).filterMap (fun f => lookupKey e.frames f)

/-- `VideoEvent._ensure_frame` (events.py line 834): lazily create the
frame's DetectedEvent if absent. -/
def VideoEvent._ensure_frame (e : VideoEvent) (frame_number : Nat) : VideoEvent :=
  if (lookupKey e.frames frame_number).isSome then e
  else { e with frames := setKey e.frames frame_number { frame_number := some frame_number } }

/-- `VideoEvent.add_event_attribute`. -/
def VideoEvent.add_event_attribute (e : VideoEvent) (attr : Attribute) : VideoEvent :=
  { e with attrs := e.attrs ++ [attr] }

/-- `VideoEvent.add_event_attributes`. -/
def VideoEvent.add_event_attributes (e : VideoEvent) (attrs : AttributeContainer) : VideoEvent :=
  { e with attrs := e.attrs ++ attrs }

/-- `VideoEvent.add_frame_attribute` (events.py line 527): lazily creates
the frame's record, then appends. -/
def VideoEvent.add_frame_attribute (e : VideoEvent) (attr : Attribute) (frame_number : Nat) : VideoEvent :=
  let e1 := e._ensure_frame frame_number
  { e1 with frames := modifyKey e1.frames frame_number (fun de => de.add_attribute attr) }

/-- `VideoEvent.add_frame_attributes` (events.py line 537). -/
def VideoEvent.add_frame_attributes (e : VideoEvent) (attrs : AttributeContainer) (frame_number : Nat) : VideoEvent :=
  let e1 := e._ensure_frame frame_number
  { e1 with frames := modifyKey e1.frames frame_number (fun de => de.add_attributes attrs) }

/-- `VideoEvent._add_detected_object` (events.py line 839).  Raises
ValueError when neither an explicit frame number nor the object's own
frame number is available; the error carries the receiver's state at the
raise. -/
def VideoEvent._add_detected_object (e : VideoEvent) (obj : DetectedObject)
    (frame_number : Option Nat) : Except (PyErr × VideoEvent) VideoEvent :=
  match frame_number, obj.frame_number with
  | none, none => .error (.valueError, e)
  | none, some f =>
    let obj1 := { obj with frame_number := some f }
    let e1 := e._ensure_frame f
    .ok { e1 with frames := modifyKey e1.frames f (fun de => de.add_object obj1) }
  | some f, _ =>
    let obj1 := { obj with frame_number := some f }
    let e1 := e._ensure_frame f
    .ok { e1 with frames := modifyKey e1.frames f (fun de => de.add_object obj1) }

/-- `VideoEvent._add_detected_objects` (events.py line 852): adds each
object in turn; an element that cannot resolve a frame number raises with
the receiver as mutated by the preceding elements. -/
def VideoEvent._add_detected_objects (e : VideoEvent) (objects : List DetectedObject)
    (frame_number : Option Nat) : Except (PyErr × VideoEvent) VideoEvent :=
  match objects with
  | [] => .ok e
  | obj :: rest =>
    match e._add_detected_object obj frame_number with
    | .error err => .error err
    | .ok e1 => e1._add_detected_objects rest frame_number

/-- `VideoEvent._add_detected_event` (events.py line 856).  When `clean`
is true the incoming record's label and index are cleared; the record's
frame number is overwritten; the record is installed (insert or
overwrite) at the frame. -/
def VideoEvent._add_detected_event (e : VideoEvent) (event : DetectedEvent)
    (frame_number : Option Nat) (clean : Bool) : Except (PyErr × VideoEvent) VideoEvent :=
  match frame_number, event.frame_number with
  | none, none => .error (.valueError, e)
  | none, some f =>
    let ev1 := if clean then { event with label := none, index := none } else event
    .ok { e with frames := setKey e.frames f { ev1 with frame_number := some f } }
  | some f, _ =>
    let ev1 := if clean then { event with label := none, index := none } else event
    .ok { e with frames := setKey e.frames f { ev1 with frame_number := some f } }

/-- `VideoEvent._add_detected_events` (events.py line 872): adds each
detection in turn (with no explicit frame number); an element without a
frame number raises with the receiver as mutated by the preceding
elements. -/
def VideoEvent._add_detected_events (e : VideoEvent) (events : List DetectedEvent)
    (clean : Bool) : Except (PyErr × VideoEvent) VideoEvent :=
  match events with
  | [] => .ok e
  | ev :: rest =>
    match e._add_detected_event ev none clean with
    | .error err => .error err
    | .ok e1 => e1._add_detected_events rest clean

/-- The argument of `VideoEvent.add_object`, which dispatches on whether
the object is frame-scoped (`DetectedObject`) or temporal
(`VideoObject`). -/
inductive ObjItem where
  | video (obj : VideoObject)
  | det (obj : DetectedObject)
deriving DecidableEq

/-- `VideoEvent.add_object` (events.py line 547). -/
def VideoEvent.add_object (e : VideoEvent) (obj : ObjItem)
    (frame_number : Option Nat) : Except (PyErr × VideoEvent) VideoEvent :=
  match obj with
  | .det o => e._add_detected_object o frame_number
  | .video o => .ok { e with objects := e.objects ++ [o] }

/-- The argument of `VideoEvent.add_objects`, which dispatches on the
container type. -/
inductive ObjsItem where
  | video (objs : VideoObjectContainer)
  | det (objs : DetectedObjectContainer)
deriving DecidableEq

/-- `VideoEvent.add_objects` (events.py line 560). -/
def VideoEvent.add_objects (e : VideoEvent) (objects : ObjsItem)
    (frame_number : Option Nat) : Except (PyErr × VideoEvent) VideoEvent :=
  match objects with
  | .det objs => e._add_detected_objects objs frame_number
  | .video objs => .ok { e with objects := e.objects ++ objs }

/-- `VideoEvent.add_detection` (events.py line 574). -/
def VideoEvent.add_detection (e : VideoEvent) (event : DetectedEvent)
    (frame_number : Option Nat) (clean : Bool) : Except (PyErr × VideoEvent) VideoEvent :=
  e._add_detected_event event frame_number clean

/-- `VideoEvent.add_detections` (events.py line 586). -/
def VideoEvent.add_detections (e : VideoEvent) (events : List DetectedEvent)
    (clean : Bool) : Except (PyErr × VideoEvent) VideoEvent :=
  e._add_detected_events events clean

/-- `VideoEvent.add_child_object` (events.py line 598): requires the
target to carry a uuid; raises ValueError otherwise, leaving the receiver
as it was. -/
def VideoEvent.add_child_object (e : VideoEvent) (obj : VideoObject) :
    Except (PyErr × VideoEvent) VideoEvent :=
  match obj.uuid with
  | none => .error (.valueError, e)
  | some u => .ok { e with child_objects := insert u e.child_objects }

/-- `VideoEvent.add_child_event` (events.py line 609). -/
def VideoEvent.add_child_event (e : VideoEvent) (event : VideoEvent) :
    Except (PyErr × VideoEvent) VideoEvent :=
  match event.uuid with
  | none => .error (.valueError, e)
  | some u => .ok { e with child_events := insert u e.child_events }

/-- Modelled from the spec: `AttributeContainerSchema` (eta.core.data, not
under src/) maps attribute names to the set of allowed values; mutating
adds grow it, validation checks membership, and subset-checking is
pointwise containment. -/
abbrev AttributeContainerSchema := List (String × List String)

/-- Modelled from the spec: `AttributeContainerSchema.add_attribute` grows
the schema to accommodate the attribute. -/
def AttributeContainerSchema.add_attribute : AttributeContainerSchema → Attribute → AttributeContainerSchema
  | [], a => [(a.name, [a.value])]
  | (n, vs) :: rest, a =>
    if n = a.name then (n, if a.value ∈ vs then vs else vs ++ [a.value]) :: rest
    else (n, vs) :: AttributeContainerSchema.add_attribute rest a

/-- Modelled from the spec: `AttributeContainerSchema.add_attributes`. -/
def AttributeContainerSchema.add_attributes (s : AttributeContainerSchema)
    (attrs : AttributeContainer) : AttributeContainerSchema :=
  attrs.foldl AttributeContainerSchema.add_attribute s

/-- Modelled from the spec: `AttributeContainerSchema.validate_attribute`
raises a schema-violation error when the attribute name is unknown or the
value is outside the allowed set. -/
def AttributeContainerSchema.validate_attribute (s : AttributeContainerSchema)
    (a : Attribute) : Except PyErr Unit :=
  match lookupKey s a.name with
  | none => .error .schemaError
  | some vs => if a.value ∈ vs then .ok () else .error .schemaError

/-- Modelled from the spec: `AttributeContainerSchema.validate` validates
every attribute of the container. -/
def AttributeContainerSchema.validate (s : AttributeContainerSchema) :
    AttributeContainer → Except PyErr Unit
  | [] => .ok ()
  | a :: rest =>
    match AttributeContainerSchema.validate_attribute s a with
    | .error e => .error e
    | .ok _ => AttributeContainerSchema.validate s rest

/-- Modelled from the spec: `AttributeContainerSchema.is_valid_attribute`
is the non-throwing form of `validate_attribute`. -/
def AttributeContainerSchema.is_valid_attribute (s : AttributeContainerSchema)
    (a : Attribute) : Bool :=
  match AttributeContainerSchema.validate_attribute s a with
  | .ok _ => true
  | .error _ => false

/-- Modelled from the spec: `AttributeContainerSchema.validate_subset_of_schema`
requires every attribute name of `s` to appear in `t` with an allowed-value
set containing the one in `s`. -/
def AttributeContainerSchema.validate_subset_of_schema
    (s t : AttributeContainerSchema) : Except PyErr Unit :=
  if s.all (fun p =>
      match lookupKey t p.1 with
      | none => false
      | some ws => p.2.all (fun v => decide (v ∈ ws)))
  then .ok () else .error .schemaError

/-- Modelled from the spec: `AttributeContainer.filter_by_schema` keeps
exactly the attributes the schema allows. -/
def AttributeContainer.filter_by_schema (attrs : AttributeContainer)
    (s : AttributeContainerSchema) : AttributeContainer :=
  attrs.filter (fun a => AttributeContainerSchema.is_valid_attribute s a)

/-- Modelled from the spec: `ObjectSchema` (eta.core.objects, not under
src/) mirrors `EventSchema` one level down: a label with object-level and
frame-level attribute schemas. -/
structure ObjectSchema where
  label : Option String
  attrs : AttributeContainerSchema := []
  frames : AttributeContainerSchema := []
deriving DecidableEq

/-- Modelled from the spec: `ObjectSchema.validate_subset_of_schema`. -/
def ObjectSchema.validate_subset_of_schema (a b : ObjectSchema) : Except PyErr Unit :=
  if a.label = b.label then
    match AttributeContainerSchema.validate_subset_of_schema a.attrs b.attrs with
    | .error e => .error e
    | .ok _ => AttributeContainerSchema.validate_subset_of_schema a.frames b.frames
  else .error .schemaError

/-- Modelled from the spec: `ObjectContainerSchema` (eta.core.objects, not
under src/) maps object labels to `ObjectSchema`s, lazily populated on
mutating adds. -/
abbrev ObjectContainerSchema := List (Option String × ObjectSchema)

/-- Modelled from the spec: `ObjectContainerSchema.add_object` auto-creates
the label's entry and grows its frame-level attribute schema with the
detected object's attributes. -/
def ObjectContainerSchema.add_object (s : ObjectContainerSchema)
    (obj : DetectedObject) : ObjectContainerSchema :=
  let s1 := if (lookupKey s obj.label).isSome then s
            else s ++ [(obj.label, { label := obj.label })]
  modifyKey s1 obj.label
    (fun os => { os with frames := AttributeContainerSchema.add_attributes os.frames obj.attrs })

/-- Modelled from the spec: `ObjectContainerSchema.add_objects`. -/
def ObjectContainerSchema.add_objects (s : ObjectContainerSchema) :
    DetectedObjectContainer → ObjectContainerSchema
  | [] => s
  | obj :: rest =>
    ObjectContainerSchema.add_objects (ObjectContainerSchema.add_object s obj) rest

/-- Modelled from the spec: `ObjectContainerSchema.validate_object` checks
the object's label is known and its attributes are allowed by that label's
frame-level schema. -/
def ObjectContainerSchema.validate_object (s : ObjectContainerSchema)
    (obj : DetectedObject) : Except PyErr Unit :=
  match lookupKey s obj.label with
  | none => .error .schemaError
  | some os => AttributeContainerSchema.validate os.frames obj.attrs

/-- Modelled from the spec: `ObjectContainerSchema.validate_frame_attribute`
(referenced at events.py line 1388 via `is_valid_frame_attribute`). -/
def ObjectContainerSchema.validate_frame_attribute (s : ObjectContainerSchema)
    (label : Option String) (attr : Attribute) : Except PyErr Unit :=
  match lookupKey s label with
  | none => .error .schemaError
  | some os => AttributeContainerSchema.validate_attribute os.frames attr

/-- Modelled from the spec: `ObjectContainerSchema.validate_frame_attributes`
(referenced at events.py line 1560). -/
def ObjectContainerSchema.validate_frame_attributes (s : ObjectContainerSchema)
    (label : Option String) (attrs : AttributeContainer) : Except PyErr Unit :=
  match lookupKey s label with
  | none => .error .schemaError
  | some os => AttributeContainerSchema.validate os.frames attrs

/-- Modelled from the spec: `ObjectContainerSchema.is_valid_frame_attribute`,
the non-throwing form of `validate_frame_attribute`.  This (together with
the plural `is_valid_frame_attributes`) is the collaborator method family
that exists; no method named `is_valid_frame_attributess` exists. -/
def ObjectContainerSchema.is_valid_frame_attribute (s : ObjectContainerSchema)
    (label : Option String) (attr : Attribute) : Bool :=
  match ObjectContainerSchema.validate_frame_attribute s label attr with
  | .ok _ => true
  | .error _ => false

/-- Modelled from the spec: `ObjectContainerSchema.is_valid_frame_attributes`. -/
def ObjectContainerSchema.is_valid_frame_attributes (s : ObjectContainerSchema)
    (label : Option String) (attrs : AttributeContainer) : Bool :=
  match ObjectContainerSchema.validate_frame_attributes s label attrs with
  | .ok _ => true
  | .error _ => false

/-- Modelled from the spec: `ObjectContainerSchema.validate_subset_of_schema`. -/
def ObjectContainerSchema.validate_subset_of_schema :
    ObjectContainerSchema → ObjectContainerSchema → Except PyErr Unit
  | [], _ => .ok ()
  | (k, os) :: rest, t =>
    match lookupKey t k with
    | none => .error .schemaError
    | some ot =>
      match ObjectSchema.validate_subset_of_schema os ot with
      | .error e => .error e
      | .ok _ => ObjectContainerSchema.validate_subset_of_schema rest t

/-- Modelled from the spec: `DetectedObjectContainer.filter_by_schema`
removes objects whose label the schema does not know and filters the
surviving objects' attributes by their label's frame-level schema. -/
def DetectedObjectContainer.filter_by_schema (objs : DetectedObjectContainer)
    (s : ObjectContainerSchema) : DetectedObjectContainer :=
  (objs.filter (fun o => (lookupKey s o.label).isSome)).map
    (fun o =>
      match lookupKey s o.label with
      | some os => { o with attrs := AttributeContainer.filter_by_schema o.attrs os.frames }
      | none => o)

/-- Modelled from the spec: `VideoObjectContainer.filter_by_schema`
removes temporal objects whose label the schema does not know. -/
def VideoObjectContainer.filter_by_schema (objs : VideoObjectContainer)
    (s : ObjectContainerSchema) : VideoObjectContainer :=
  objs.filter (fun o => (lookupKey s o.label).isSome)

/-- `EventSchema` (events.py line 955): for one label, an event-level
attribute schema, a frame-level attribute schema, and a nested
object-container schema. -/
structure EventSchema where
  label : Option String
  attrs : AttributeContainerSchema := []
  frames : AttributeContainerSchema := []
  objects : ObjectContainerSchema := []
deriving DecidableEq

/-- `EventSchema.validate_label` (events.py line 1414). -/
def EventSchema.validate_label (s : EventSchema) (label : Option String) : Except PyErr Unit :=
  if label ≠ s.label then .error .schemaError else .ok ()

/-- `EventSchema.has_label` (events.py line 989). -/
def EventSchema.has_label (s : EventSchema) (label : Option String) : Bool :=
  label == s.label

/-- `EventSchema.get_label` (events.py line 1000). -/
def EventSchema.get_label (s : EventSchema) : Option String := s.label

/-- `EventSchema.add_event_attribute` (events.py line 1178). -/
def EventSchema.add_event_attribute (s : EventSchema) (attr : Attribute) : EventSchema :=
  { s with attrs := AttributeContainerSchema.add_attribute s.attrs attr }

/-- `EventSchema.add_event_attributes` (events.py line 1186). -/
def EventSchema.add_event_attributes (s : EventSchema) (attrs : AttributeContainer) : EventSchema :=
  { s with attrs := AttributeContainerSchema.add_attributes s.attrs attrs }

/-- `EventSchema.add_frame_attribute` (events.py line 1194). -/
def EventSchema.add_frame_attribute (s : EventSchema) (attr : Attribute) : EventSchema :=
  { s with frames := AttributeContainerSchema.add_attribute s.frames attr }

/-- `EventSchema.add_frame_attributes` (events.py line 1202). -/
def EventSchema.add_frame_attributes (s : EventSchema) (attrs : AttributeContainer) : EventSchema :=
  { s with frames := AttributeContainerSchema.add_attributes s.frames attrs }

/-- `EventSchema.add_objects` (events.py line 1266). -/
def EventSchema.add_objects (s : EventSchema) (objects : DetectedObjectContainer) : EventSchema :=
  { s with objects := ObjectContainerSchema.add_objects s.objects objects }

/-- The state change of `EventSchema._add_detected_event` (events.py line
1695) once its optional label validation has passed: grow the frame-level
attribute schema and the object schema from the record. -/
def EventSchema._add_detected_event_core (s : EventSchema) (devent : DetectedEvent) : EventSchema :=
  { s with frames := AttributeContainerSchema.add_attributes s.frames devent.attrs,
           objects := ObjectContainerSchema.add_objects s.objects devent.objects }

/-- `EventSchema._add_detected_event` (events.py line 1695). -/
def EventSchema._add_detected_event (s : EventSchema) (devent : DetectedEvent)
    (validate_label : Bool) : Except (PyErr × EventSchema) EventSchema :=
  if validate_label ∧ devent.label ≠ s.label then .error (.schemaError, s)
  else .ok (s._add_detected_event_core devent)

/-- `EventSchema._add_video_event` (events.py line 1702): validate the
label, add the event-level attributes, then fold every stored detection in
(without re-validating its label). -/
def EventSchema._add_video_event (s : EventSchema) (event : VideoEvent) :
    Except (PyErr × EventSchema) EventSchema :=
  if event.label ≠ s.label then .error (.schemaError, s)
  else
    .ok (event.iter_detections.foldl EventSchema._add_detected_event_core
      { s with attrs := AttributeContainerSchema.add_attributes s.attrs event.attrs })

/-- The argument of `EventSchema.add_event` / `validate` (events.py lines
1274, 1573), which dispatch on whether the entity is a `DetectedEvent` or
a `VideoEvent`. -/
inductive EventLike where
  | det (event : DetectedEvent)
  | vid (event : VideoEvent)
deriving DecidableEq

/-- The `label` of either kind of event. -/
def EventLike.label : EventLike → Option String
  | .det e => e.label
  | .vid e => e.label

/-- `EventSchema.add_event` (events.py line 1274). -/
def EventSchema.add_event (s : EventSchema) : EventLike → Except (PyErr × EventSchema) EventSchema
  | .det e => s._add_detected_event e true
  | .vid e => s._add_video_event e

/-- Validation of a list of detected objects against the object schema,
in order (the loop at events.py lines 1713-1714). -/
def validateObjList (s : ObjectContainerSchema) : DetectedObjectContainer → Except PyErr Unit
  | [] => .ok ()
  | obj :: rest =>
    match ObjectContainerSchema.validate_object s obj with
    | .error e => .error e
    | .ok _ => validateObjList s rest

/-- `EventSchema._validate_detected_event` (events.py line 1708):
optionally validate the label, then the frame-level attributes, then every
object. -/
def EventSchema._validate_detected_event (s : EventSchema) (event : DetectedEvent)
    (validate_label : Bool) : Except PyErr Unit :=
  if validate_label ∧ event.label ≠ s.label then .error .schemaError
  else
    match AttributeContainerSchema.validate s.frames event.attrs with
    | .error e => .error e
    | .ok _ => validateObjList s.objects event.objects

/-- Validation of a list of stored detections without label re-validation
(the loop at events.py lines 1719-1720). -/
def EventSchema.validateDetList (s : EventSchema) : List DetectedEvent → Except PyErr Unit
  | [] => .ok ()
  | de :: rest =>
    match s._validate_detected_event de false with
    | .error e => .error e
    | .ok _ => s.validateDetList rest

/-- `EventSchema._validate_video_event` (events.py line 1716): label, then
event-level attributes, then every stored detection without re-validating
its label (frame-level records inherit identity from their parent). -/
def EventSchema._validate_video_event (s : EventSchema) (event : VideoEvent) : Except PyErr Unit :=
  if event.label ≠ s.label then .error .schemaError
  else
    match AttributeContainerSchema.validate s.attrs event.attrs with
    | .error e => .error e
    | .ok _ => s.validateDetList event.iter_detections

/-- `EventSchema.validate` (events.py line 1573). -/
def EventSchema.validate (s : EventSchema) : EventLike → Except PyErr Unit
  | .det e => s._validate_detected_event e true
  | .vid e => s._validate_video_event e

/-- `EventSchema.validate_subset_of_schema` (events.py line 1587): labels
must match exactly, then the event-attribute, frame-attribute, and object
sub-schemas must each be subsets of the corresponding sub-schema.  (The
`validate_schema_type` guard is a no-op here since the model has a single
schema type.) -/
def EventSchema.validate_subset_of_schema (s schema : EventSchema) : Except PyErr Unit :=
  if s.label ≠ schema.label then .error .schemaError
  else
    match AttributeContainerSchema.validate_subset_of_schema s.attrs schema.attrs with
    | .error e => .error e
    | .ok _ =>
      match AttributeContainerSchema.validate_subset_of_schema s.frames schema.frames with
      | .error e => .error e
      | .ok _ => ObjectContainerSchema.validate_subset_of_schema s.objects schema.objects

/-- `EventSchema.is_valid_object_frame_attribute` (events.py line 1377):
delegates to the collaborator's `is_valid_frame_attribute`. -/
def EventSchema.is_valid_object_frame_attribute (s : EventSchema)
    (label : Option String) (attr : Attribute) : Bool :=
  ObjectContainerSchema.is_valid_frame_attribute s.objects label attr

/-- `EventSchema.is_valid_object_frame_attributes` (events.py line 1390).
The source delegates to `self.objects.is_valid_frame_attributess` (note
the trailing double s at line 1401); the object-schema collaborator
defines `is_valid_frame_attribute` and `is_valid_frame_attributes` (cf.
the delegations at lines 1388 and 1560) but no method of that misspelled
name, so the Python attribute lookup fails and the call raises
`AttributeError` for every input instead of returning a boolean. -/
def EventSchema.is_valid_object_frame_attributes (_s : EventSchema)
    (_label : Option String) (_attrs : AttributeContainer) : Except PyErr Bool :=
  .error .attributeError

/-- `EventContainerSchema` (events.py line 1739): a mapping from event
labels to `EventSchema`s, embedded as an insertion-ordered association
list (the Python dict). -/
structure EventContainerSchema where
  schema : List (Option String × EventSchema) := []
deriving DecidableEq

/-- `EventContainerSchema.has_event_label` (events.py line 1777). -/
def EventContainerSchema.has_event_label (c : EventContainerSchema) (label : Option String) : Bool :=
  (lookupKey c.schema label).isSome

/-- `EventContainerSchema.validate_event_label` (events.py line 2376):
raises a schema-violation error when the label is unknown; never creates
an entry. -/
def EventContainerSchema.validate_event_label (c : EventContainerSchema)
    (label : Option String) : Except PyErr Unit :=
  if (lookupKey c.schema label).isSome then .ok () else .error .schemaError

/-- `EventContainerSchema.get_event_schema` (events.py line 1788):
validates the label, then returns its schema; never creates an entry. -/
def EventContainerSchema.get_event_schema (c : EventContainerSchema)
    (label : Option String) : Except PyErr EventSchema :=
  match lookupKey c.schema label with
  | none => .error .schemaError
  | some es => .ok es

/-- `EventContainerSchema._ensure_has_event_label` (events.py line 2645):
get-or-insert of an empty per-label schema. -/
def EventContainerSchema._ensure_has_event_label (c : EventContainerSchema)
    (label : Option String) : EventContainerSchema :=
  if c.has_event_label label then c
  else { schema := c.schema ++ [(label, { label := label })] }

/-- `EventContainerSchema.add_event_label` (events.py line 2018). -/
def EventContainerSchema.add_event_label (c : EventContainerSchema)
    (label : Option String) : EventContainerSchema :=
  c._ensure_has_event_label label

/-- `EventContainerSchema.add_event_attribute` (events.py line 2026). -/
def EventContainerSchema.add_event_attribute (c : EventContainerSchema)
    (label : Option String) (attr : Attribute) : EventContainerSchema :=
  let c1 := c._ensure_has_event_label label
  { schema := modifyKey c1.schema label (fun es => es.add_event_attribute attr) }

/-- `EventContainerSchema.add_frame_attribute` (events.py line 2048). -/
def EventContainerSchema.add_frame_attribute (c : EventContainerSchema)
    (label : Option String) (attr : Attribute) : EventContainerSchema :=
  let c1 := c._ensure_has_event_label label
  { schema := modifyKey c1.schema label (fun es => es.add_frame_attribute attr) }

/-- `EventContainerSchema.add_event` (events.py line 2151): ensure the
event's label has an entry, then add the event to that entry's schema.
The inner add can only raise when a pre-existing entry's label disagrees
with its key, in which case the receiver is left as it was. -/
def EventContainerSchema.add_event (c : EventContainerSchema) (e : EventLike) :
    Except (PyErr × EventContainerSchema) EventContainerSchema :=
  let c1 := c._ensure_has_event_label e.label
  let es := (lookupKey c1.schema e.label).getD { label := e.label }
  match es.add_event e with
  | .error (err, _) => .error (err, c1)
  | .ok es1 => .ok { schema := setKey c1.schema e.label es1 }

/-- `EventContainerSchema.add_events` (events.py line 2160). -/
def EventContainerSchema.add_events (c : EventContainerSchema) :
    List EventLike → Except (PyErr × EventContainerSchema) EventContainerSchema
  | [] => .ok c
  | e :: rest =>
    match c.add_event e with
    | .error err => .error err
    | .ok c1 => c1.add_events rest

/-- `EventContainerSchema.build_active_schema` (events.py line 2611):
start from the empty schema and add every event of the container. -/
def EventContainerSchema.build_active_schema (events : List EventLike) :
    Except (PyErr × EventContainerSchema) EventContainerSchema :=
  EventContainerSchema.add_events { schema := [] } events

/-- `EventContainerSchema.validate_event` (events.py line 2548): validate
the event's label, then the event against its label's schema. -/
def EventContainerSchema.validate_event (c : EventContainerSchema) (e : EventLike) :
    Except PyErr Unit :=
  match lookupKey c.schema e.label with
  | none => .error .schemaError
  | some es => es.validate e

/-- `EventContainerSchema.validate` (events.py line 2560): validate every
event of the container. -/
def EventContainerSchema.validate (c : EventContainerSchema) :
    List EventLike → Except PyErr Unit
  | [] => .ok ()
  | e :: rest =>
    match c.validate_event e with
    | .error err => .error err
    | .ok _ => c.validate rest

/-- `EventContainerSchema.validate_event_attributes` (events.py line 2404). -/
def EventContainerSchema.validate_event_attributes (c : EventContainerSchema)
    (label : Option String) (attrs : AttributeContainer) : Except PyErr Unit :=
  match lookupKey c.schema label with
  | none => .error .schemaError
  | some es => AttributeContainerSchema.validate es.attrs attrs

/-- `EventContainerSchema.validate_frame_attributes` (events.py line 2434). -/
def EventContainerSchema.validate_frame_attributes (c : EventContainerSchema)
    (label : Option String) (attrs : AttributeContainer) : Except PyErr Unit :=
  match lookupKey c.schema label with
  | none => .error .schemaError
  | some es => AttributeContainerSchema.validate es.frames attrs

/-- The `try: validate ; return True ; except LabelsSchemaError: return
False` pattern of the `is_valid_*` family (events.py lines 2169-2374):
only the typed schema-violation error is caught; any other exception
would propagate. -/
def catchSchema : Except PyErr Unit → Except PyErr Bool
  | .ok _ => .ok true
  | .error .schemaError => .ok false
  | .error e => .error e

/-- `EventContainerSchema.is_valid_event_label` (events.py line 2169). -/
def EventContainerSchema.is_valid_event_label (c : EventContainerSchema)
    (label : Option String) : Except PyErr Bool :=
  catchSchema (c.validate_event_label label)

/-- `EventContainerSchema.is_valid_event_attributes` (events.py line 2201). -/
def EventContainerSchema.is_valid_event_attributes (c : EventContainerSchema)
    (label : Option String) (attrs : AttributeContainer) : Except PyErr Bool :=
  catchSchema (c.validate_event_attributes label attrs)

/-- `EventContainerSchema.is_valid_frame_attributes` (events.py line 2235). -/
def EventContainerSchema.is_valid_frame_attributes (c : EventContainerSchema)
    (label : Option String) (attrs : AttributeContainer) : Except PyErr Bool :=
  catchSchema (c.validate_frame_attributes label attrs)

/-- `EventContainerSchema.is_valid_event` (events.py line 2361). -/
def EventContainerSchema.is_valid_event (c : EventContainerSchema)
    (e : EventLike) : Except PyErr Bool :=
  catchSchema (c.validate_event e)

/-- The loop of `EventContainerSchema.validate_subset_of_schema`
(events.py lines 2584-2590). -/
def subsetLoop : List (Option String × EventSchema) → EventContainerSchema → Except PyErr Unit
  | [], _ => .ok ()
  | (label, es) :: rest, other =>
    match lookupKey other.schema label with
    | none => .error .schemaError
    | some es1 =>
      match es.validate_subset_of_schema es1 with
      | .error e => .error e
      | .ok _ => subsetLoop rest other

/-- `EventContainerSchema.validate_subset_of_schema` (events.py line
2572). -/
def EventContainerSchema.validate_subset_of_schema (c other : EventContainerSchema) :
    Except PyErr Unit :=
  subsetLoop c.schema other

/-- `DetectedEvent.filter_by_schema` (events.py line 214): a `None` label
is allowed only when `allow_none_label` is set; a non-`None` label must
equal the schema's label; then the attribute and object sub-collections
are filtered by their own schemas. -/
def DetectedEvent.filter_by_schema (e : DetectedEvent) (schema : EventSchema)
    (allow_none_label : Bool) : Except PyErr DetectedEvent :=
  match e.label with
  | none =>
    if allow_none_label then
      .ok { e with attrs := AttributeContainer.filter_by_schema e.attrs schema.frames,
                   objects := DetectedObjectContainer.filter_by_schema e.objects schema.objects }
    else .error .schemaError
  | some l =>
    if some l ≠ schema.get_label then .error .schemaError
    else
      .ok { e with attrs := AttributeContainer.filter_by_schema e.attrs schema.frames,
                   objects := DetectedObjectContainer.filter_by_schema e.objects schema.objects }

/-- The per-element loop of `DetectedEventContainer.filter_by_schema`
(events.py lines 363-365): look up each surviving event's schema and
filter the event by it. -/
def filterDetLoop (schema : EventContainerSchema) :
    List DetectedEvent → Except PyErr (List DetectedEvent)
  | [] => .ok []
  | e :: rest =>
    match schema.get_event_schema e.label with
    | .error err => .error err
    | .ok es =>
      match e.filter_by_schema es false with
      | .error err => .error err
      | .ok e1 =>
        match filterDetLoop schema rest with
        | .error err => .error err
        | .ok rest1 => .ok (e1 :: rest1)

/-- `DetectedEventContainer.filter_by_schema` (events.py line 352): first
remove the events whose labels the schema does not know, then filter each
surviving event by its per-label schema. -/
def DetectedEventContainer.filter_by_schema (events : List DetectedEvent)
    (schema : EventContainerSchema) : Except PyErr (List DetectedEvent) :=
  filterDetLoop schema (events.filter (fun e => schema.has_event_label e.label))

/-- The per-detection loop of `VideoEvent.filter_by_schema` (events.py
lines 683-684): every stored record's attrs/objects are filtered against
the same schema, with the default `allow_none_label = False`. -/
def filterFramesLoop (schema : EventSchema) :
    List (Nat × DetectedEvent) → Except PyErr (List (Nat × DetectedEvent))
  | [] => .ok []
  | (f, de) :: rest =>
    match de.filter_by_schema schema false with
    | .error err => .error err
    | .ok de1 =>
      match filterFramesLoop schema rest with
      | .error err => .error err
      | .ok rest1 => .ok ((f, de1) :: rest1)

/-- `VideoEvent.filter_by_schema` (events.py line 665): validates the
label, filters event-level attrs and temporal objects, then filters every
stored record against the same schema.  The child-object/child-event
filtering is commented out in the source (the deferred open question) and
is therefore absent here too. -/
def VideoEvent.filter_by_schema (e : VideoEvent) (schema : EventSchema) :
    Except PyErr VideoEvent :=
  match schema.validate_label e.label with
  | .error err => .error err
  | .ok _ =>
    match filterFramesLoop schema e.frames with
    | .error err => .error err
    | .ok frames1 =>
      .ok { e with attrs := AttributeContainer.filter_by_schema e.attrs schema.attrs,
                   objects := VideoObjectContainer.filter_by_schema e.objects schema.objects,
                   frames := frames1 }

/-- The per-element loop of `VideoEventContainer.filter_by_schema`
(events.py lines 937-940). -/
def filterVidLoop (schema : EventContainerSchema) :
    List VideoEvent → Except PyErr (List VideoEvent)
  | [] => .ok []
  | e :: rest =>
    match schema.get_event_schema e.label with
    | .error err => .error err
    | .ok es =>
      match e.filter_by_schema es with
      | .error err => .error err
      | .ok e1 =>
        match filterVidLoop schema rest with
        | .error err => .error err
        | .ok rest1 => .ok (e1 :: rest1)

/-- `VideoEventContainer.filter_by_schema` (events.py line 917): first
remove the events whose labels the schema does not know, then filter each
surviving event by its per-label schema. -/
def VideoEventContainer.filter_by_schema (events : List VideoEvent)
    (schema : EventContainerSchema) : Except PyErr (List VideoEvent) :=
  filterVidLoop schema (events.filter (fun e => schema.has_event_label e.label))

/-- Modelled from the spec: `VideoObjectContainer`'s own frame renderer
(eta.core.objects, not under src/) maps every frame in the union of the
objects' supports to the detections of the objects present there. -/
def VideoObjectContainer.render_all_frames (objs : VideoObjectContainer) :
    List (Nat × DetectedObjectContainer) :=
  (frameSetOf (objs.map VideoObject.support).flatten).map
    (fun f => (f, objs.filterMap (fun o => lookupKey o.frames f)))

/-- Modelled from the spec: the single-frame form of the object
container's renderer. -/
def VideoObjectContainer.render_frame (objs : VideoObjectContainer) (f : Nat) :
    Option DetectedObjectContainer :=
  lookupKey (VideoObjectContainer.render_all_frames objs) f

/-- `VideoEventFrameRenderer._get_event_attrs` (events.py line 2725):
`None` when the event has no event-level attributes, else a deep copy of
them (copying is value-level identity here). -/
def VideoEventFrameRenderer._get_event_attrs (event : VideoEvent) : Option AttributeContainer :=
  if event.has_event_attributes then some event.attrs else none

/-- `VideoEventFrameRenderer._render_all_object_frames` (events.py line
2731). -/
def VideoEventFrameRenderer._render_all_object_frames (event : VideoEvent) :
    List (Nat × DetectedObjectContainer) :=
  if event.has_video_objects then VideoObjectContainer.render_all_frames event.objects else []

/-- `VideoEventFrameRenderer._render_object_frame` (events.py line 2738). -/
def VideoEventFrameRenderer._render_object_frame (event : VideoEvent) (frame_number : Nat) :
    Option DetectedObjectContainer :=
  if event.has_video_objects then VideoObjectContainer.render_frame event.objects frame_number else none

/-- The base record of `VideoEventFrameRenderer._render_frame` (events.py
lines 2700-2704): a deep copy of the stored record at the frame, or a
synthesized empty record carrying only the frame number. -/
def renderBase (event : VideoEvent) (frame_number : Nat) : DetectedEvent :=
  match lookupKey event.frames frame_number with
  | some de => de
  | none => { frame_number := some frame_number }

/-- `VideoEventFrameRenderer._render_frame` (events.py line 2699): start
from the base record; prepend the (deep-copied) event-level attributes
when present; append the rendered objects when present; overwrite label,
confidence and index with the aggregate's values whenever the aggregate
defines them. -/
def VideoEventFrameRenderer._render_frame (event : VideoEvent) (frame_number : Nat)
    (event_attrs : Option AttributeContainer) (dobjs : Option DetectedObjectContainer) :
    DetectedEvent :=
  let devent := renderBase event frame_number
  let devent := match event_attrs with
    | some ea => { devent with attrs := ea ++ devent.attrs }
    | none => devent
  let devent := match dobjs with
    | some objs => devent.add_objects objs
    | none => devent
  let devent := match event.label with
    | some l => { devent with label := some l }
    | none => devent
  let devent := match event.confidence with
    | some c => { devent with confidence := some c }
    | none => devent
  match event.index with
  | some i => { devent with index := some i }
  | none => devent

/-- `VideoEventFrameRenderer.render_all_frames` (events.py line 2682):
render every frame of the support into a frame-indexed mapping. -/
def VideoEventFrameRenderer.render_all_frames (event : VideoEvent) :
    List (Nat × DetectedEvent) :=
  let event_attrs := VideoEventFrameRenderer._get_event_attrs event
  let dobjs_map := VideoEventFrameRenderer._render_all_object_frames event
  event.support.foldl
    (fun m f =>
      setKey m f (VideoEventFrameRenderer._render_frame event f event_attrs (lookupKey dobjs_map f)))
    []

/-- `VideoEventFrameRenderer.render_frame` (events.py line 2666): `None`
when the frame is outside the support. -/
def VideoEventFrameRenderer.render_frame (event : VideoEvent) (frame_number : Nat) :
    Option DetectedEvent :=
  if frame_number ∈ event.support then
    some (VideoEventFrameRenderer._render_frame event frame_number
      (VideoEventFrameRenderer._get_event_attrs event)
      (VideoEventFrameRenderer._render_object_frame event frame_number))
  else none

/-- `VideoEvent.render_framewise_labels` (events.py line 655). -/
def VideoEvent.render_framewise_labels (e : VideoEvent) : VideoEvent :=
  { frames := VideoEventFrameRenderer.render_all_frames e }

/-
Heap-allocation view of the renderer, used to state the non-mutation and
no-aliasing claims.  The `DetectedEvent`s a `VideoEvent` stores live in a
store of cells addressed by index; `deepcopy` allocates a fresh cell, and
every subsequent statement of `_render_frame` writes through the fresh
address only, exactly as in the source.
-/

/-- A store of `DetectedEvent` cells; addresses are indices. -/
structure Store where
  cells : List DetectedEvent := []
deriving DecidableEq

/-- Read the cell at an address. -/
def Store.get (σ : Store) (a : Nat) : DetectedEvent := σ.cells.getD a {}

/-- Allocate a fresh cell holding `d`, returning its address. -/
def Store.alloc (σ : Store) (d : DetectedEvent) : Store × Nat :=
  (⟨σ.cells ++ [d]⟩, σ.cells.length)

/-- Overwrite the cell at an address. -/
def Store.put (σ : Store) (a : Nat) (d : DetectedEvent) : Store :=
  ⟨σ.cells.set a d⟩

/-- The number of allocated cells. -/
def Store.size (σ : Store) : Nat := σ.cells.length

/-- A `VideoEvent` whose stored records live in a `Store`: `frames` maps
frame numbers to cell addresses.  Only the fields the renderer reads are
carried. -/
structure VideoEventRef where
  label : Option String := none
  confidence : Option Rat := none
  index : Option Int := none
  attrs : AttributeContainer := []
  objects : VideoObjectContainer := []
  frames : List (Nat × Nat) := []
  frozen_support : Option (List Nat) := none
deriving DecidableEq

/-- The `support` property on the store view (same computation as
`VideoEvent.support`). -/
def VideoEventRef.support (e : VideoEventRef) : List Nat :=
  match e.frozen_support with
  | some s => s
  | none => frameSetOf (e.frames.map Prod.fst ++ (e.objects.map VideoObject.support).flatten)

/-- `VideoEventFrameRenderer._render_frame` on the store view: `deepcopy`
of the stored record (or the synthesized record) allocates a fresh cell;
the attribute prepend, the object appends, and the label/confidence/index
overwrites each write through that fresh address. -/
def renderFrameRef (σ : Store) (event : VideoEventRef) (frame_number : Nat)
    (event_attrs : Option AttributeContainer) (dobjs : Option DetectedObjectContainer) :
    Store × Nat :=
  let base := match lookupKey event.frames frame_number with
    | some a => σ.get a
    | none => ({ frame_number := some frame_number } : DetectedEvent)
  let p := σ.alloc base
  let σ1 := p.1
  let addr := p.2
  let σ2 := match event_attrs with
    | some ea => σ1.put addr { σ1.get addr with attrs := ea ++ (σ1.get addr).attrs }
    | none => σ1
  let σ3 := match dobjs with
    | some objs => σ2.put addr ((σ2.get addr).add_objects objs)
    | none => σ2
  let σ4 := match event.label with
    | some l => σ3.put addr { σ3.get addr with label := some l }
    | none => σ3
  let σ5 := match event.confidence with
    | some c => σ4.put addr { σ4.get addr with confidence := some c }
    | none => σ4
  let σ6 := match event.index with
    | some i => σ5.put addr { σ5.get addr with index := some i }
    | none => σ5
  (σ6, addr)

/-- One iteration of the `render_all_frames` loop on the store view:
render the frame and file the fresh record's address under it. -/
def renderStepRef (event : VideoEventRef) (event_attrs : Option AttributeContainer)
    (dobjs_map : List (Nat × DetectedObjectContainer))
    (acc : Store × List (Nat × Nat)) (f : Nat) : Store × List (Nat × Nat) :=
  let p := renderFrameRef acc.1 event f event_attrs (lookupKey dobjs_map f)
  (p.1, setKey acc.2 f p.2)

/-- `VideoEventFrameRenderer.render_all_frames` on the store view: the
result maps every frame of the support to the address of a freshly
rendered record. -/
def renderAllFramesRef (event : VideoEventRef) (σ : Store) :
    Store × List (Nat × Nat) :=
  let event_attrs := if event.attrs.isEmpty then none else some event.attrs
  let dobjs_map := if event.objects.isEmpty then []
                   else VideoObjectContainer.render_all_frames event.objects
  event.support.foldl (renderStepRef event event_attrs dobjs_map) (σ, [])

/-- `VideoEventFrameRenderer.render_frame` on the store view. -/
def renderFrameRefTop (event : VideoEventRef) (σ : Store) (frame_number : Nat) :
    Store × Option Nat :=
  if frame_number ∈ event.support then
    let event_attrs := if event.attrs.isEmpty then none else some event.attrs
    let dobjs := if event.objects.isEmpty then none
                 else VideoObjectContainer.render_frame event.objects frame_number
    let p := renderFrameRef σ event frame_number event_attrs dobjs
    (p.1, some p.2)
  else (σ, none)

/-
Dictionary (de)serialization.  The dictionary form of an entity is a
record of optional fields: a field is `none` exactly when `attributes()`
omits it (null or empty).  Collaborator values (bounding boxes, masks,
attribute containers, object containers, frame ranges) serialize through
their own exact-inverse dictionary forms, modelled as identity.  The
constant `type` tag is elided (`from_dict` dispatches on it, but the model
has a single concrete class per entity).
-/

/-- The dictionary form of a `DetectedEvent` (cf. `attributes()` at
events.py line 249 and `from_dict` at line 268). -/
structure DetectedEventDict where
  label : Option String := none
  bounding_box : Option BoundingBox := none
  mask : Option Mask := none
  confidence : Option Rat := none
  top_k_probs : Option (List (String × Rat)) := none
  index : Option Int := none
  frame_number : Option Nat := none
  attrs : Option AttributeContainer := none
  objects : Option DetectedObjectContainer := none
deriving DecidableEq

/-- Serialization of a `DetectedEvent` following `attributes()` (events.py
line 249): nullable fields are included exactly when non-null; `attrs` and
`objects` exactly when nonempty. -/
def DetectedEvent.to_dict (e : DetectedEvent) : DetectedEventDict :=
  { label := e.label
    bounding_box := e.bounding_box
    mask := e.mask
    confidence := e.confidence
    top_k_probs := e.top_k_probs
    index := e.index
    frame_number := e.frame_number
    attrs := if e.attrs.isEmpty then none else some e.attrs
    objects := if e.objects.isEmpty then none else some e.objects }

/-- `DetectedEvent.from_dict` (events.py line 268): absent fields are
restored to their null/empty defaults. -/
def DetectedEvent.from_dict (d : DetectedEventDict) : DetectedEvent :=
  { label := d.label
    bounding_box := d.bounding_box
    mask := d.mask
    confidence := d.confidence
    top_k_probs := d.top_k_probs
    index := d.index
    frame_number := d.frame_number
    attrs := d.attrs.getD []
    objects := d.objects.getD [] }

/-- The dictionary form of a `VideoEvent` (cf. `attributes()` at events.py
line 723 and `_from_dict` at line 773).  The uuid sets serialize as the
sorted lists of their elements. -/
structure VideoEventDict where
  label : Option String := none
  confidence : Option Rat := none
  support : Option (List Nat) := none
  index : Option Int := none
  uuid : Option String := none
  attrs : Option AttributeContainer := none
  objects : Option VideoObjectContainer := none
  frames : Option (List (Nat × DetectedEventDict)) := none
  child_objects : Option (Finset String) := none
  child_events : Option (Finset String) := none
deriving DecidableEq

/-- Serialization of a `VideoEvent` following `attributes()` (events.py
line 723): `support` is included exactly when frozen; containers, the
frame map and the uuid sets exactly when nonempty. -/
def VideoEvent.to_dict (e : VideoEvent) : VideoEventDict :=
  { label := e.label
    confidence := e.confidence
    support := e.frozen_support
    index := e.index
    uuid := e.uuid
    attrs := if e.attrs.isEmpty then none else some e.attrs
    objects := if e.objects.isEmpty then none else some e.objects
    frames := if e.frames.isEmpty then none
              else some (e.frames.map (fun p => (p.1, p.2.to_dict)))
    child_objects := if e.child_objects = ∅ then none else some e.child_objects
    child_events := if e.child_events = ∅ then none else some e.child_events }

/-- `VideoEvent._from_dict` (events.py line 773): absent fields are
restored to their null/empty defaults; frame keys are re-read as integers;
the serialized uuid collections are re-read as sets. -/
def VideoEvent.from_dict (d : VideoEventDict) : VideoEvent :=
  { label := d.label
    confidence := d.confidence
    frozen_support := d.support
    index := d.index
    uuid := d.uuid
    attrs := d.attrs.getD []
    objects := d.objects.getD []
    frames := (d.frames.getD []).map (fun p => (p.1, DetectedEvent.from_dict p.2))
    child_objects := d.child_objects.getD ∅
    child_events := d.child_events.getD ∅ }

/-
Well-formedness.  A Python dict never has two equal keys; the association
lists embedding dicts carry that invariant as an explicit predicate.
-/

/-- The keys of an association list are pairwise distinct (the Python dict
invariant). -/
def keysNodup {κ α : Type} (l : List (κ × α)) : Prop := (l.map Prod.fst).Nodup

/-- Well-formedness of an attribute-container schema. -/
def AttributeContainerSchema.WF (s : AttributeContainerSchema) : Prop := keysNodup s

/-- Well-formedness of an object schema. -/
def ObjectSchema.WF (os : ObjectSchema) : Prop :=
  AttributeContainerSchema.WF os.attrs ∧ AttributeContainerSchema.WF os.frames

/-- Well-formedness of an object-container schema. -/
def ObjectContainerSchema.WF (s : ObjectContainerSchema) : Prop :=
  keysNodup s ∧ ∀ p ∈ s, ObjectSchema.WF p.2

/-- Well-formedness of an event schema. -/
def EventSchema.WF (s : EventSchema) : Prop :=
  AttributeContainerSchema.WF s.attrs ∧ AttributeContainerSchema.WF s.frames
    ∧ ObjectContainerSchema.WF s.objects

/-- Well-formedness of an event-container schema. -/
def EventContainerSchema.WF (c : EventContainerSchema) : Prop :=
  keysNodup c.schema ∧ ∀ p ∈ c.schema, EventSchema.WF p.2

/-- Key-label consistency of an event-container schema: every entry's
schema carries the label it is filed under (true of every schema the
mutating API builds). -/
def EventContainerSchema.labelsConsistent (c : EventContainerSchema) : Prop :=
  ∀ k es, lookupKey c.schema k = some es → es.label = k

instance {κ α : Type} [DecidableEq κ] (l : List (κ × α)) : Decidable (keysNodup l) :=
  inferInstanceAs (Decidable (l.map Prod.fst).Nodup)

instance (s : AttributeContainerSchema) : Decidable s.WF :=
  inferInstanceAs (Decidable (keysNodup s))

instance (os : ObjectSchema) : Decidable os.WF :=
  inferInstanceAs (Decidable (_ ∧ _))

instance (s : ObjectContainerSchema) : Decidable s.WF :=
  inferInstanceAs (Decidable (keysNodup s ∧ ∀ p ∈ s, ObjectSchema.WF p.2))

instance (s : EventSchema) : Decidable s.WF :=
  inferInstanceAs (Decidable (_ ∧ _ ∧ _))

instance (c : EventContainerSchema) : Decidable c.WF :=
  inferInstanceAs (Decidable (keysNodup c.schema ∧ ∀ p ∈ c.schema, EventSchema.WF p.2))

/-
Growth orders on the schema types: the mutating `add_*` operations only
ever enlarge a schema, and validation is monotone along these orders.
-/

/-- Growth order on attribute-container schemas: every allowed
name/value pair stays allowed. -/
def acsLe (s t : AttributeContainerSchema) : Prop :=
  ∀ n vs, lookupKey s n = some vs →
    ∃ ws, lookupKey t n = some ws ∧ ∀ v ∈ vs, v ∈ ws

/-- Growth order on object-container schemas: every object label stays
present, with its frame-level attribute schema enlarged. -/
def ocsLe (s t : ObjectContainerSchema) : Prop :=
  ∀ k os, lookupKey s k = some os →
    ∃ ot, lookupKey t k = some ot ∧ acsLe os.frames ot.frames

/-- Growth order on event schemas. -/
def esLe (s t : EventSchema) : Prop :=
  s.label = t.label ∧ acsLe s.attrs t.attrs ∧ acsLe s.frames t.frames
    ∧ ocsLe s.objects t.objects

/-- Growth order on event-container schemas. -/
def ecsLe (c d : EventContainerSchema) : Prop :=
  ∀ k es, lookupKey c.schema k = some es →
    ∃ es1, lookupKey d.schema k = some es1 ∧ esLe es es1

/-
Concrete values used by counterexamples and witnesses.
-/

/-- A detection record carrying only a frame number. -/
def exDetFrame : DetectedEvent := { frame_number := some 1 }

/-- A detection record with no frame number. -/
def exDetNoFrame : DetectedEvent := { label := some "meeting" }

/-- An empty temporal aggregate. -/
def exVideoEventEmpty : VideoEvent := {}

/-- The state `add_detections` leaves behind when its second element
cannot resolve a frame number: the first element is already committed. -/
def exVideoEventStaged : VideoEvent := { frames := [(1, { frame_number := some 1 })] }

/-- A temporal aggregate with frozen support `[1, 2, 3]`, one stored
record at frame 2, an event-level attribute, and event-level label,
confidence and index. -/
def exAggregate : VideoEvent :=
  { label := some "meeting"
    confidence := some (1 : Rat)
    index := some 7
    attrs := [{ name := "venue", value := "indoor" }]
    frames := [(2, { attrs := [{ name := "speaker", value := "alice" }],
                     confidence := some (0 : Rat) })]
    frozen_support := some [1, 2, 3] }

/-- The aggregate of `exAggregate` on the store view: its stored record
lives at cell 0. -/
def exAggregateRef : VideoEventRef :=
  { label := some "meeting"
    confidence := some (1 : Rat)
    index := some 7
    attrs := [{ name := "venue", value := "indoor" }]
    frames := [(2, 0)]
    frozen_support := some [1, 2, 3] }

/-- The record `render_all_frames` produces for frame 1 of
`exAggregate`. -/
def exRendered1 : DetectedEvent :=
  (lookupKey (VideoEventFrameRenderer.render_all_frames exAggregate) 1).getD {}

/-- Three event schemas built by progressively adding attributes. -/
def exSchemaA : EventSchema := { label := some "meeting" }

/-- `exSchemaA` plus one allowed event-level attribute value. -/
def exSchemaB : EventSchema :=
  { label := some "meeting", attrs := [("venue", ["indoor"])] }

/-- `exSchemaB` plus a further allowed value and a frame-level
attribute. -/
def exSchemaC : EventSchema :=
  { label := some "meeting", attrs := [("venue", ["indoor", "outdoor"])],
    frames := [("speaker", ["alice"])] }

/-- Container schema holding `exSchemaA`. -/
def exContSchemaA : EventContainerSchema := { schema := [(some "meeting", exSchemaA)] }

/-- Container schema holding `exSchemaB`. -/
def exContSchemaB : EventContainerSchema := { schema := [(some "meeting", exSchemaB)] }

/-- Container schema holding `exSchemaC`. -/
def exContSchemaC : EventContainerSchema := { schema := [(some "meeting", exSchemaC)] }

/-- A container schema knowing only the label `party`. -/
def exContSchema : EventContainerSchema :=
  { schema := [(some "party", { label := some "party" })] }

/-- A temporal aggregate labeled `meeting`, unknown to `exContSchema`. -/
def exEventLike : EventLike := .vid { label := some "meeting" }

/-- A sample attribute. -/
def exAttr : Attribute := { name := "venue", value := "indoor" }

/-- A temporal object without a uuid. -/
def exObjNoUuid : VideoObject := {}

/-- A temporal object with a uuid. -/
def exObjWithUuid : VideoObject := { uuid := some "u1" }

/-- A temporal aggregate with a uuid. -/
def exChildEvent : VideoEvent := { uuid := some "u2" }

/-- An event schema with one object label, used to exhibit the
`is_valid_object_frame_attributes` failure. -/
def exC4Schema : EventSchema :=
  { label := some "meeting"
    objects := [(some "person",
      { label := some "person", frames := [("pose", ["standing"])] })] }

/-- A container schema knowing only the label `Y`. -/
def exFilterSchema : EventContainerSchema :=
  { schema := [(some "Y", { label := some "Y" })] }

/-- A detection record labeled `X`, absent from `exFilterSchema`. -/
def exDetX : DetectedEvent := { label := some "X" }

/-
Association-list lemmas (the Python dict embedding).
-/

theorem lookupKey_setKey_self {κ α : Type} [DecidableEq κ] (l : List (κ × α)) (k : κ) (v : α) :
    lookupKey (setKey l k v) k = some v := by
  induction l with
  | nil => simp [setKey, lookupKey]
  | cons p rest ih =>
    obtain ⟨k1, v1⟩ := p
    by_cases h : k1 = k
    · simp [setKey, h, lookupKey]
    · simp [setKey, h, lookupKey, ih]

theorem lookupKey_setKey_other {κ α : Type} [DecidableEq κ] (l : List (κ × α))
    (k x : κ) (v : α) (h : x ≠ k) :
    lookupKey (setKey l k v) x = lookupKey l x := by
  induction l with
  | nil => simp [setKey, lookupKey, Ne.symm h]
  | cons p rest ih =>
    obtain ⟨k1, v1⟩ := p
    by_cases h1 : k1 = k
    · subst h1
      simp [setKey, lookupKey, Ne.symm h]
    · simp [setKey, h1, lookupKey, ih]

theorem lookupKey_append_left {κ α : Type} [DecidableEq κ] (l m : List (κ × α))
    (x : κ) (v : α) (h : lookupKey l x = some v) :
    lookupKey (l ++ m) x = some v := by
  induction l with
  | nil => simp [lookupKey] at h
  | cons p rest ih =>
    obtain ⟨k1, v1⟩ := p
    by_cases h1 : k1 = x
    · simp [lookupKey, h1] at h ⊢
      exact h
    · simp [lookupKey, h1] at h ⊢
      exact ih h

theorem lookupKey_append_none {κ α : Type} [DecidableEq κ] (l m : List (κ × α))
    (x : κ) (h : lookupKey l x = none) :
    lookupKey (l ++ m) x = lookupKey m x := by
  induction l with
  | nil => simp
  | cons p rest ih =>
    obtain ⟨k1, v1⟩ := p
    by_cases h1 : k1 = x
    · simp [lookupKey, h1] at h
    · simp [lookupKey, h1] at h ⊢
      exact ih h

theorem lookupKey_modifyKey_self {κ α : Type} [DecidableEq κ] (l : List (κ × α))
    (k : κ) (g : α → α) :
    lookupKey (modifyKey l k g) k = (lookupKey l k).map g := by
  induction l with
  | nil => simp [modifyKey, lookupKey]
  | cons p rest ih =>
    obtain ⟨k1, v1⟩ := p
    by_cases h : k1 = k
    · simp [modifyKey, h, lookupKey]
    · simp [modifyKey, h, lookupKey, ih]

theorem lookupKey_modifyKey_other {κ α : Type} [DecidableEq κ] (l : List (κ × α))
    (k x : κ) (g : α → α) (h : x ≠ k) :
    lookupKey (modifyKey l k g) x = lookupKey l x := by
  induction l with
  | nil => simp [modifyKey]
  | cons p rest ih =>
    obtain ⟨k1, v1⟩ := p
    by_cases h1 : k1 = k
    · subst h1
      simp [modifyKey, lookupKey, Ne.symm h]
    · simp [modifyKey, h1, lookupKey, ih]

theorem lookupKey_mem {κ α : Type} [DecidableEq κ] (l : List (κ × α))
    (k : κ) (v : α) (h : lookupKey l k = some v) : (k, v) ∈ l := by
  induction l with
  | nil => simp [lookupKey] at h
  | cons p rest ih =>
    obtain ⟨k1, v1⟩ := p
    by_cases h1 : k1 = k
    · subst h1
      simp [lookupKey] at h
      subst h
      exact List.mem_cons_self _ _
    · simp [lookupKey, h1] at h
      exact List.mem_cons_of_mem _ (ih h)

theorem lookupKey_of_nodup_mem {κ α : Type} [DecidableEq κ] (l : List (κ × α))
    (k : κ) (v : α) (hn : keysNodup l) (hm : (k, v) ∈ l) :
    lookupKey l k = some v := by
  induction l with
  | nil => simp at hm
  | cons p rest ih =>
    obtain ⟨k1, v1⟩ := p
    rw [keysNodup, List.map_cons, List.nodup_cons] at hn
    rcases List.mem_cons.mp hm with heq | hrest
    · injection heq with hk hv
      subst hk
      subst hv
      simp [lookupKey]
    · have hk1 : k1 ≠ k := by
        intro hc
        subst hc
        exact hn.1 (List.mem_map.mpr ⟨(k1, v), hrest, rfl⟩)
      simp [lookupKey, hk1]
      exact ih hn.2 hrest

/-
C8: add_child_object / add_child_event.
-/

/-- C8: `add_child_object` and `add_child_event` raise a
precondition-violation (`ValueError`) exactly when the target's uuid is
unset, leaving the receiver (in particular `child_objects` /
`child_events`) unchanged; on success they insert the target's uuid into
the corresponding weak-reference set. -/
theorem C8_add_child_uuid (e : VideoEvent) (obj : VideoObject) (ev : VideoEvent) :
    (obj.uuid = none → e.add_child_object obj = .error (.valueError, e)) ∧
    (∀ u, obj.uuid = some u →
      e.add_child_object obj = .ok { e with child_objects := insert u e.child_objects }) ∧
    (ev.uuid = none → e.add_child_event ev = .error (.valueError, e)) ∧
    (∀ u, ev.uuid = some u →
      e.add_child_event ev = .ok { e with child_events := insert u e.child_events }) := by
  refine ⟨fun h => ?_, fun u h => ?_, fun h => ?_, fun u h => ?_⟩ <;>
    simp [VideoEvent.add_child_object, VideoEvent.add_child_event, h]

/-- Witness for C8 at concrete inputs: a uuid-less object is rejected
with the receiver unchanged, and a uuid-carrying event is recorded. -/
theorem C8_add_child_uuid_witness :
    exVideoEventEmpty.add_child_object exObjNoUuid = .error (.valueError, exVideoEventEmpty) ∧
    exVideoEventEmpty.add_child_event exChildEvent
      = .ok { exVideoEventEmpty with child_events := insert "u2" exVideoEventEmpty.child_events } :=
  ⟨(C8_add_child_uuid exVideoEventEmpty exObjNoUuid exChildEvent).1 rfl,
   (C8_add_child_uuid exVideoEventEmpty exObjNoUuid exChildEvent).2.2.2 "u2" rfl⟩

/-
C4: the is_valid_* family.
-/

/-- C4 (code bug): `EventSchema.is_valid_object_frame_attributes`
evaluates to an `AttributeError` on every input — the source delegates to
a collaborator method name that does not exist — instead of returning a
boolean as its documentation promises, while its sibling predicates
(`is_valid_object_frame_attribute`, the container-level
`is_valid_event_label`) do return booleans by catching the typed
schema-violation error. -/
theorem C4_is_valid_object_frame_attributes_raises :
    exC4Schema.is_valid_object_frame_attributes (some "person")
        [{ name := "pose", value := "standing" }] = .error .attributeError
      ∧ exC4Schema.is_valid_object_frame_attribute (some "person")
          { name := "pose", value := "standing" } = true
      ∧ EventContainerSchema.is_valid_event_label exContSchema (some "meeting") = .ok false
      ∧ EventContainerSchema.is_valid_event_label exContSchema (some "party") = .ok true :=
  ⟨rfl, rfl, rfl, rfl⟩

/-
C3: dictionary round-trip.
-/

theorem detEvent_round (de : DetectedEvent) :
    DetectedEvent.from_dict de.to_dict = de := by
  cases de
  simp [DetectedEvent.to_dict, DetectedEvent.from_dict]
  constructor <;> (split <;> simp_all)

theorem framesMap_round (l : List (Nat × DetectedEvent)) :
    (l.map (fun p => (p.1, p.2.to_dict))).map
        (fun p => (p.1, DetectedEvent.from_dict p.2)) = l := by
  induction l with
  | nil => rfl
  | cons p rest ih => simp [ih, detEvent_round]

/-- C3: deserializing the serialized dictionary form reproduces the value
exactly — every present field is reproduced and every omitted (null or
empty) field is restored to its null/empty default — for `DetectedEvent`s
and for `VideoEvent`s. -/
theorem C3_round_trip (de : DetectedEvent) (ve : VideoEvent) :
    DetectedEvent.from_dict de.to_dict = de ∧
    VideoEvent.from_dict ve.to_dict = ve := by
  refine ⟨detEvent_round de, ?_⟩
  cases ve
  simp [VideoEvent.to_dict, VideoEvent.from_dict]
  refine ⟨?_, ?_, ?_, ?_, ?_⟩ <;> (try (split <;> simp_all))
  rw [← List.map_map]
  exact framesMap_round _

/-
C7: lazy population of the container schema.
-/

/-- C7: when an event label is not yet in the container schema, every
mutating `add_*` operation auto-creates an (initially empty) `EventSchema`
entry for it and succeeds, whereas the validating lookups
(`validate_event_label`, `get_event_schema`) raise a schema-violation
error and, being pure reads, create no entry. -/
theorem C7_lazy_population (c : EventContainerSchema) (l : Option String)
    (attr : Attribute) (e : EventLike)
    (h : c.has_event_label l = false) :
    lookupKey (c.add_event_label l).schema l = some { label := l } ∧
    lookupKey (c.add_event_attribute l attr).schema l
      = some (EventSchema.add_event_attribute { label := l } attr) ∧
    lookupKey (c.add_frame_attribute l attr).schema l
      = some (EventSchema.add_frame_attribute { label := l } attr) ∧
    (e.label = l → ∃ c1, c.add_event e = .ok c1 ∧ (lookupKey c1.schema l).isSome = true) ∧
    c.validate_event_label l = .error .schemaError ∧
    c.get_event_schema l = .error .schemaError := by
  have hnone : lookupKey c.schema l = none := by
    cases hx : lookupKey c.schema l with
    | none => rfl
    | some es =>
      rw [EventContainerSchema.has_event_label, hx] at h
      simp at h
  have hlook : lookupKey (c.schema ++ [(l, ({ label := l } : EventSchema))]) l
      = some { label := l } := by
    rw [lookupKey_append_none _ _ _ hnone]
    simp [lookupKey]
  have hens : c._ensure_has_event_label l
      = { schema := c.schema ++ [(l, { label := l })] } := by
    simp [EventContainerSchema._ensure_has_event_label, h]
  refine ⟨?_, ?_, ?_, ?_, ?_, ?_⟩
  · rw [EventContainerSchema.add_event_label, hens]
    exact hlook
  · rw [EventContainerSchema.add_event_attribute, hens]
    rw [lookupKey_modifyKey_self, hlook]
    rfl
  · rw [EventContainerSchema.add_frame_attribute, hens]
    rw [lookupKey_modifyKey_self, hlook]
    rfl
  · intro he
    subst he
    rw [EventContainerSchema.add_event]
    simp only [hens, hlook, Option.getD_some]
    cases e with
    | det de =>
      rw [EventSchema.add_event, EventSchema._add_detected_event]
      simp only [EventLike.label]
      rw [if_neg (by simp [EventLike.label])]
      exact ⟨_, rfl, by rw [lookupKey_setKey_self]; rfl⟩
    | vid ve =>
      rw [EventSchema.add_event, EventSchema._add_video_event]
      rw [if_neg (by simp [EventLike.label])]
      exact ⟨_, rfl, by rw [lookupKey_setKey_self]; rfl⟩
  · rw [EventContainerSchema.validate_event_label, hnone]
    rfl
  · rw [EventContainerSchema.get_event_schema, hnone]

/-- Witness for C7: the label `meeting` is unknown to `exContSchema`;
`add_event_label` creates its empty entry while `validate_event_label`
raises. -/
theorem C7_lazy_population_witness :
    lookupKey (exContSchema.add_event_label (some "meeting")).schema (some "meeting")
        = some { label := some "meeting" } ∧
    exContSchema.validate_event_label (some "meeting") = .error .schemaError := by
  have h := C7_lazy_population exContSchema (some "meeting") exAttr exEventLike (by decide)
  exact ⟨h.1, h.2.2.2.2.1⟩

/-
C1: failure atomicity of the mutating operations.
-/

theorem add_detected_event_error_state (e : VideoEvent) (de : DetectedEvent)
    (fn : Option Nat) (clean : Bool) (err : PyErr) (e1 : VideoEvent)
    (h : e._add_detected_event de fn clean = .error (err, e1)) :
    e1 = e ∧ err = .valueError := by
  rw [VideoEvent._add_detected_event.eq_def] at h
  split at h
  · injection h with h1
    injection h1 with h2 h3
    exact ⟨h3.symm, h2.symm⟩
  · exact absurd h (by simp)
  · exact absurd h (by simp)

theorem add_detected_object_error_state (e : VideoEvent) (obj : DetectedObject)
    (fn : Option Nat) (err : PyErr) (e1 : VideoEvent)
    (h : e._add_detected_object obj fn = .error (err, e1)) :
    e1 = e ∧ err = .valueError := by
  rw [VideoEvent._add_detected_object.eq_def] at h
  split at h
  · injection h with h1
    injection h1 with h2 h3
    exact ⟨h3.symm, h2.symm⟩
  · exact absurd h (by simp)
  · exact absurd h (by simp)

theorem add_detected_events_staged (l : List DetectedEvent) :
    ∀ (e : VideoEvent) (clean : Bool) (err : PyErr) (e1 : VideoEvent),
    e._add_detected_events l clean = .error (err, e1) →
    ∃ de rest1 rest2, l = rest1 ++ de :: rest2 ∧
      e._add_detected_events rest1 clean = .ok e1 ∧
      e1._add_detected_event de none clean = .error (err, e1) := by
  induction l with
  | nil =>
    intro e clean err e1 h
    rw [VideoEvent._add_detected_events] at h
    exact absurd h (by simp)
  | cons de0 rest ih =>
    intro e clean err e1 h
    rw [VideoEvent._add_detected_events] at h
    cases h0 : e._add_detected_event de0 none clean with
    | error p =>
      rw [h0] at h
      obtain ⟨err0, e0⟩ := p
      injection h with h1
      injection h1 with h2 h3
      obtain ⟨he, _⟩ := add_detected_event_error_state e de0 none clean err0 e0 h0
      refine ⟨de0, [], rest, rfl, ?_, ?_⟩
      · rw [VideoEvent._add_detected_events]
        rw [h3.symm, he]
      · rw [h3.symm, he, h0, h2, he]
    | ok e2 =>
      rw [h0] at h
      obtain ⟨de, r1, r2, hsplit, hok, herr⟩ := ih e2 clean err e1 h
      refine ⟨de, de0 :: r1, r2, by simp [hsplit], ?_, herr⟩
      rw [VideoEvent._add_detected_events, h0]
      exact hok

theorem add_detected_objects_staged (l : List DetectedObject) :
    ∀ (e : VideoEvent) (fn : Option Nat) (err : PyErr) (e1 : VideoEvent),
    e._add_detected_objects l fn = .error (err, e1) →
    ∃ ob rest1 rest2, l = rest1 ++ ob :: rest2 ∧
      e._add_detected_objects rest1 fn = .ok e1 ∧
      e1._add_detected_object ob fn = .error (err, e1) := by
  induction l with
  | nil =>
    intro e fn err e1 h
    rw [VideoEvent._add_detected_objects] at h
    exact absurd h (by simp)
  | cons ob0 rest ih =>
    intro e fn err e1 h
    rw [VideoEvent._add_detected_objects] at h
    cases h0 : e._add_detected_object ob0 fn with
    | error p =>
      rw [h0] at h
      obtain ⟨err0, e0⟩ := p
      injection h with h1
      injection h1 with h2 h3
      obtain ⟨he, _⟩ := add_detected_object_error_state e ob0 fn err0 e0 h0
      refine ⟨ob0, [], rest, rfl, ?_, ?_⟩
      · rw [VideoEvent._add_detected_objects]
        rw [h3.symm, he]
      · rw [h3.symm, he, h0, h2, he]
    | ok e2 =>
      rw [h0] at h
      obtain ⟨ob, r1, r2, hsplit, hok, herr⟩ := ih e2 fn err e1 h
      refine ⟨ob, ob0 :: r1, r2, by simp [hsplit], ?_, herr⟩
      rw [VideoEvent._add_detected_objects, h0]
      exact hok

theorem es_add_event_error_state (s : EventSchema) (e : EventLike) (err : PyErr)
    (s1 : EventSchema) (h : s.add_event e = .error (err, s1)) : s1 = s := by
  cases e with
  | det de =>
    rw [EventSchema.add_event, EventSchema._add_detected_event] at h
    by_cases hc : (true : Bool) = true ∧ de.label ≠ s.label
    · rw [if_pos hc] at h
      injection h with h1
      injection h1 with h2 h3
      exact h3.symm
    · rw [if_neg hc] at h
      exact absurd h (by simp)
  | vid ve =>
    rw [EventSchema.add_event, EventSchema._add_video_event] at h
    by_cases hc : ve.label ≠ s.label
    · rw [if_pos hc] at h
      injection h with h1
      injection h1 with h2 h3
      exact h3.symm
    · rw [if_neg hc] at h
      exact absurd h (by simp)

theorem ecs_add_event_error_state (c : EventContainerSchema) (e : EventLike) (err : PyErr)
    (c1 : EventContainerSchema) (h : c.add_event e = .error (err, c1)) : c1 = c := by
  rw [EventContainerSchema.add_event] at h
  by_cases hp : c.has_event_label e.label = true
  · have hens : c._ensure_has_event_label e.label = c := by
      rw [EventContainerSchema._ensure_has_event_label, if_pos hp]
    rw [hens] at h
    cases h1 : ((lookupKey c.schema e.label).getD { label := e.label }).add_event e with
    | error p =>
      obtain ⟨err0, s0⟩ := p
      rw [h1] at h
      injection h with h2
      injection h2 with h3 h4
      exact h4.symm
    | ok s1 =>
      rw [h1] at h
      exact absurd h (by simp)
  · -- the label was absent: the fresh entry carries the event's label, so
    -- the inner add cannot fail
    have hnone : lookupKey c.schema e.label = none := by
      cases hx : lookupKey c.schema e.label with
      | none => rfl
      | some es =>
        rw [EventContainerSchema.has_event_label, hx] at hp
        simp at hp
    have hens : c._ensure_has_event_label e.label
        = { schema := c.schema ++ [(e.label, { label := e.label })] } := by
      rw [EventContainerSchema._ensure_has_event_label, if_neg hp]
    have hlook : lookupKey (c.schema ++ [(e.label, ({ label := e.label } : EventSchema))]) e.label
        = some { label := e.label } := by
      rw [lookupKey_append_none _ _ _ hnone]
      simp [lookupKey]
    rw [hens] at h
    simp only [hlook, Option.getD_some] at h
    cases e with
    | det de =>
      rw [EventSchema.add_event, EventSchema._add_detected_event] at h
      rw [if_neg (by simp [EventLike.label])] at h
      exact absurd h (by simp)
    | vid ve =>
      rw [EventSchema.add_event, EventSchema._add_video_event] at h
      rw [if_neg (by simp [EventLike.label])] at h
      exact absurd h (by simp)

/-- C1 (amended): on failure, every modelled single-element `add_*`
operation — `VideoEvent.add_detection`, `add_object`, `add_child_object`,
`add_child_event`, `EventSchema.add_event`,
`EventContainerSchema.add_event` — leaves its receiver exactly as it was
(and the `validate_*` family is pure, so it never mutates); the batch
operations `VideoEvent.add_detections` and `add_objects` (over detected
objects) instead commit element by element: a call that fails because
some element cannot resolve a frame number leaves the receiver in the
state reached by successfully adding the elements preceding the failing
one — so the frames mapping is in general extended, not unchanged. -/
theorem C1_failure_atomicity :
    (∀ (e : VideoEvent) (de : DetectedEvent) (fn : Option Nat) (clean : Bool)
        (err : PyErr) (e1 : VideoEvent),
      e.add_detection de fn clean = .error (err, e1) → e1 = e) ∧
    (∀ (e : VideoEvent) (obj : ObjItem) (fn : Option Nat) (err : PyErr) (e1 : VideoEvent),
      e.add_object obj fn = .error (err, e1) → e1 = e) ∧
    (∀ (e : VideoEvent) (obj : VideoObject) (err : PyErr) (e1 : VideoEvent),
      e.add_child_object obj = .error (err, e1) → e1 = e) ∧
    (∀ (e ev : VideoEvent) (err : PyErr) (e1 : VideoEvent),
      e.add_child_event ev = .error (err, e1) → e1 = e) ∧
    (∀ (s : EventSchema) (ev : EventLike) (err : PyErr) (s1 : EventSchema),
      s.add_event ev = .error (err, s1) → s1 = s) ∧
    (∀ (c : EventContainerSchema) (ev : EventLike) (err : PyErr) (c1 : EventContainerSchema),
      c.add_event ev = .error (err, c1) → c1 = c) ∧
    (∀ (e : VideoEvent) (l : List DetectedEvent) (clean : Bool) (err : PyErr) (e1 : VideoEvent),
      e.add_detections l clean = .error (err, e1) →
      ∃ de rest1 rest2, l = rest1 ++ de :: rest2 ∧
        e._add_detected_events rest1 clean = .ok e1 ∧
        e1._add_detected_event de none clean = .error (err, e1)) ∧
    (∀ (e : VideoEvent) (l : List DetectedObject) (fn : Option Nat) (err : PyErr) (e1 : VideoEvent),
      e.add_objects (.det l) fn = .error (err, e1) →
      ∃ ob rest1 rest2, l = rest1 ++ ob :: rest2 ∧
        e._add_detected_objects rest1 fn = .ok e1 ∧
        e1._add_detected_object ob fn = .error (err, e1)) := by
  refine ⟨?_, ?_, ?_, ?_, ?_, ?_, ?_, ?_⟩
  · intro e de fn clean err e1 h
    exact (add_detected_event_error_state e de fn clean err e1 h).1
  · intro e obj fn err e1 h
    cases obj with
    | det o =>
      rw [VideoEvent.add_object] at h
      exact (add_detected_object_error_state e o fn err e1 h).1
    | video o =>
      rw [VideoEvent.add_object] at h
      exact absurd h (by simp)
  · intro e obj err e1 h
    cases ho : obj.uuid with
    | none =>
      rw [VideoEvent.add_child_object, ho] at h
      injection h with h1
      injection h1 with h2 h3
      exact h3.symm
    | some u =>
      rw [VideoEvent.add_child_object, ho] at h
      exact absurd h (by simp)
  · intro e ev err e1 h
    cases ho : ev.uuid with
    | none =>
      rw [VideoEvent.add_child_event, ho] at h
      injection h with h1
      injection h1 with h2 h3
      exact h3.symm
    | some u =>
      rw [VideoEvent.add_child_event, ho] at h
      exact absurd h (by simp)
  · exact es_add_event_error_state
  · exact ecs_add_event_error_state
  · intro e l clean err e1 h
    exact add_detected_events_staged l e clean err e1 h
  · intro e l fn err e1 h
    rw [VideoEvent.add_objects] at h
    exact add_detected_objects_staged l e fn err e1 h

/-- C1 counterexample: a failing `add_detections` call that does NOT
leave the receiver's frames mapping unchanged — the first element is
committed before the second raises. -/
theorem C1_counterexample :
    exVideoEventEmpty.add_detections [exDetFrame, exDetNoFrame] true
        = .error (.valueError, exVideoEventStaged) ∧
    exVideoEventStaged.frames ≠ exVideoEventEmpty.frames := by
  exact ⟨rfl, by decide⟩

/-- Witness for C1 at concrete inputs: the staged characterization of the
failing `add_detections` call of the counterexample. -/
theorem C1_failure_atomicity_witness :
    ∃ de rest1 rest2, [exDetFrame, exDetNoFrame] = rest1 ++ de :: rest2 ∧
      exVideoEventEmpty._add_detected_events rest1 true = .ok exVideoEventStaged ∧
      exVideoEventStaged._add_detected_event de none true
        = .error (.valueError, exVideoEventStaged) :=
  C1_failure_atomicity.2.2.2.2.2.2.1 exVideoEventEmpty [exDetFrame, exDetNoFrame] true
    .valueError exVideoEventStaged rfl

/-
C10: container-level versus element-level filter_by_schema.
-/

/-- C10: the container-level `filter_by_schema` never raises on an event
whose label is absent from the schema — it behaves exactly as if those
events had been removed first, and when every label is absent it returns
the empty container — while the element-level
`DetectedEvent.filter_by_schema` raises a schema-violation error on a
label mismatch. -/
theorem C10_filter_by_schema (C : List DetectedEvent) (V : List VideoEvent)
    (s : EventContainerSchema) (de : DetectedEvent) (es : EventSchema)
    (l : String) (b : Bool) :
    (DetectedEventContainer.filter_by_schema C s
       = DetectedEventContainer.filter_by_schema
           (C.filter (fun e => s.has_event_label e.label)) s) ∧
    ((∀ e ∈ C, s.has_event_label e.label = false) →
       DetectedEventContainer.filter_by_schema C s = .ok []) ∧
    (VideoEventContainer.filter_by_schema V s
       = VideoEventContainer.filter_by_schema
           (V.filter (fun e => s.has_event_label e.label)) s) ∧
    (de.label = some l → some l ≠ es.label →
       de.filter_by_schema es b = .error .schemaError) := by
  refine ⟨?_, ?_, ?_, ?_⟩
  · rw [DetectedEventContainer.filter_by_schema, DetectedEventContainer.filter_by_schema,
      List.filter_filter]
    simp only [Bool.and_self]
  · intro hall
    rw [DetectedEventContainer.filter_by_schema, List.filter_eq_nil_iff.mpr ?_]
    · rfl
    · intro e he
      simp [hall e he]
  · rw [VideoEventContainer.filter_by_schema, VideoEventContainer.filter_by_schema,
      List.filter_filter]
    simp only [Bool.and_self]
  · intro hl hne
    simp [DetectedEvent.filter_by_schema, hl, EventSchema.get_label, hne]

/-- Witness for C10 at concrete inputs: the container filter silently
drops the unknown label `X`, while the element filter rejects it. -/
theorem C10_filter_by_schema_witness :
    DetectedEventContainer.filter_by_schema [exDetX] exFilterSchema = .ok [] ∧
    exDetX.filter_by_schema { label := some "Y" } false = .error .schemaError := by
  have h := C10_filter_by_schema [exDetX] [] exFilterSchema exDetX
    { label := some "Y" } "X" false
  refine ⟨h.2.1 ?_, h.2.2.2 rfl (by decide)⟩
  intro e he
  rw [List.mem_singleton.mp he]
  decide

/-
C5: the renderer does not mutate the source aggregate.
-/

theorem take_set_of_le {α : Type} (l : List α) (a n : Nat) (d : α) (h : n ≤ a) :
    (l.set a d).take n = l.take n := by
  induction l generalizing a n with
  | nil => simp
  | cons x xs ih =>
    cases a with
    | zero =>
      have hn : n = 0 := Nat.le_zero.mp h
      subst hn
      simp
    | succ a1 =>
      cases n with
      | zero => simp
      | succ n1 =>
        simp only [List.set_cons_succ, List.take_succ_cons]
        rw [ih a1 n1 (Nat.le_of_succ_le_succ h)]

theorem mem_setKey {κ α : Type} [DecidableEq κ] (m : List (κ × α)) (k : κ) (v : α)
    (p : κ × α) : p ∈ setKey m k v → p = (k, v) ∨ p ∈ m := by
  induction m with
  | nil =>
    intro h
    rw [setKey] at h
    left
    exact List.mem_singleton.mp h
  | cons q rest ih =>
    obtain ⟨k1, v1⟩ := q
    intro h
    rw [setKey] at h
    by_cases hc : k1 = k
    · rw [if_pos hc] at h
      rcases List.mem_cons.mp h with h1 | h1
      · left; exact h1
      · right; exact List.mem_cons_of_mem _ h1
    · rw [if_neg hc] at h
      rcases List.mem_cons.mp h with h1 | h1
      · right; exact h1 ▸ List.mem_cons_self _ _
      · rcases ih h1 with h2 | h2
        · left; exact h2
        · right; exact List.mem_cons_of_mem _ h2

/-- `_render_frame` on the store view only allocates: the pre-existing
cells are untouched, exactly one cell is added, and the returned address
is the fresh one. -/
theorem renderFrameRef_extends (σ : Store) (event : VideoEventRef) (f : Nat)
    (ea : Option AttributeContainer) (dob : Option DetectedObjectContainer) :
    (renderFrameRef σ event f ea dob).1.cells.take σ.size = σ.cells ∧
    (renderFrameRef σ event f ea dob).1.size = σ.size + 1 ∧
    (renderFrameRef σ event f ea dob).2 = σ.size := by
  refine ⟨?_, ?_, ?_⟩ <;>
    · simp only [renderFrameRef, Store.alloc, Store.get, Store.put, Store.size]
      repeat' split
      all_goals
        simp [Store.put, Store.size, take_set_of_le, List.length_set, List.take_left]

/-- The `render_all_frames` fold on the store view preserves any prefix
of the store below `n` and files only addresses at or above `n`. -/
theorem renderFoldRef_invariant (event : VideoEventRef) (ea : Option AttributeContainer)
    (dm : List (Nat × DetectedObjectContainer)) (n : Nat) (c : List DetectedEvent) :
    ∀ (l : List Nat) (τ : Store) (m : List (Nat × Nat)),
      τ.cells.take n = c → n ≤ τ.size → (∀ p ∈ m, n ≤ p.2) →
      ((l.foldl (renderStepRef event ea dm) (τ, m)).1.cells.take n = c ∧
       ∀ p ∈ (l.foldl (renderStepRef event ea dm) (τ, m)).2, n ≤ p.2) := by
  intro l
  induction l with
  | nil =>
    intro τ m h1 h2 h3
    exact ⟨h1, h3⟩
  | cons f rest ih =>
    intro τ m h1 h2 h3
    rw [List.foldl_cons]
    obtain ⟨hx1, hx2, hx3⟩ := renderFrameRef_extends τ event f ea (lookupKey dm f)
    have hstep : renderStepRef event ea dm (τ, m) f
        = ((renderFrameRef τ event f ea (lookupKey dm f)).1,
           setKey m f (renderFrameRef τ event f ea (lookupKey dm f)).2) := rfl
    rw [hstep]
    apply ih
    · -- the new store still has `c` as its prefix below `n`
      have := congrArg (fun t => List.take n t) hx1
      simp only at this
      rw [List.take_take] at this
      rw [Nat.min_eq_left h2] at this
      rw [this]
      exact h1
    · rw [hx2]
      exact Nat.le_succ_of_le h2
    · intro p hp
      rcases mem_setKey m f _ p hp with hp1 | hp1
      · rw [hp1]
        simp only [hx3]
        exact h2
      · exact h3 p hp1

/-- C5: rendering leaves the source unchanged and aliases nothing: on the
store view, every cell the aggregate's `frames` mapping can reach is
bit-for-bit what it was (the whole original store is a prefix of the new
one), and every record the renderer returns lives at a fresh address —
a copy, never an alias of a stored record.  This holds for
`render_all_frames` and for `render_frame`. -/
theorem C5_render_non_mutation (σ : Store) (event : VideoEventRef) (f : Nat) :
    ((renderAllFramesRef event σ).1.cells.take σ.size = σ.cells) ∧
    ((renderAllFramesRef event σ).2.all (fun p => decide (σ.size ≤ p.2)) = true) ∧
    ((renderFrameRefTop event σ f).1.cells.take σ.size = σ.cells) ∧
    ((renderFrameRefTop event σ f).2.all (fun a => decide (σ.size ≤ a)) = true) := by
  have htake : σ.cells.take σ.size = σ.cells := List.take_length σ.cells
  have hall := renderFoldRef_invariant event
    (if event.attrs.isEmpty then none else some event.attrs)
    (if event.objects.isEmpty then []
     else VideoObjectContainer.render_all_frames event.objects)
    σ.size σ.cells event.support σ [] htake (Nat.le_refl _) (by intro p hp; simp at hp)
  refine ⟨?_, ?_, ?_, ?_⟩
  · rw [renderAllFramesRef]
    exact hall.1
  · rw [renderAllFramesRef]
    rw [List.all_eq_true]
    intro p hp
    exact decide_eq_true (hall.2 p hp)
  · rw [renderFrameRefTop]
    split
    · obtain ⟨hx1, _, _⟩ := renderFrameRef_extends σ event f
        (if event.attrs.isEmpty then none else some event.attrs)
        (if event.objects.isEmpty then none
         else VideoObjectContainer.render_frame event.objects f)
      exact hx1
    · exact htake
  · rw [renderFrameRefTop]
    split
    · obtain ⟨_, _, hx3⟩ := renderFrameRef_extends σ event f
        (if event.attrs.isEmpty then none else some event.attrs)
        (if event.objects.isEmpty then none
         else VideoObjectContainer.render_frame event.objects f)
      simp only [Option.all_some, hx3]
      simp
    · rfl

/-
C2: completeness and inheritance of render_all_frames.
-/

theorem lookupKey_foldl_setKey {α : Type} (g : Nat → α) (l : List Nat)
    (m0 : List (Nat × α)) (x : Nat) :
    lookupKey (l.foldl (fun m f => setKey m f (g f)) m0) x
      = if x ∈ l then some (g x) else lookupKey m0 x := by
  induction l generalizing m0 with
  | nil => simp
  | cons f rest ih =>
    rw [List.foldl_cons, ih]
    by_cases hx : x ∈ rest
    · simp [hx]
    · by_cases hxf : x = f
      · subst hxf
        simp [hx, lookupKey_setKey_self]
      · simp [hx, hxf, lookupKey_setKey_other _ _ _ _ hxf]

/-- The frame-indexed mapping `render_all_frames` builds, read at any
frame: the rendered record when the frame is in the support, nothing
otherwise. -/
theorem lookup_render_all (event : VideoEvent) (x : Nat) :
    lookupKey (VideoEventFrameRenderer.render_all_frames event) x
      = if x ∈ event.support then
          some (VideoEventFrameRenderer._render_frame event x
            (VideoEventFrameRenderer._get_event_attrs event)
            (lookupKey (VideoEventFrameRenderer._render_all_object_frames event) x))
        else none := by
  simp only [VideoEventFrameRenderer.render_all_frames]
  rw [lookupKey_foldl_setKey]
  simp [lookupKey]

theorem get_event_attrs_getD (event : VideoEvent) :
    (VideoEventFrameRenderer._get_event_attrs event).getD [] = event.attrs := by
  rw [VideoEventFrameRenderer._get_event_attrs]
  split
  · rfl
  · rename_i hc
    rw [VideoEvent.has_event_attributes] at hc
    simp at hc
    exact hc.symm

/-- Closed form of `_render_frame`: start from the base record, prepend
the event-level attributes, append the rendered objects, and overwrite
label/confidence/index when the aggregate defines them. -/
theorem render_frame_eq (event : VideoEvent) (f : Nat) (ea : Option AttributeContainer)
    (dob : Option DetectedObjectContainer) :
    VideoEventFrameRenderer._render_frame event f ea dob =
      { renderBase event f with
          attrs := ea.getD [] ++ (renderBase event f).attrs
          objects := (renderBase event f).objects ++ dob.getD []
          label := if event.label.isSome then event.label else (renderBase event f).label
          confidence := if event.confidence.isSome then event.confidence
                        else (renderBase event f).confidence
          index := if event.index.isSome then event.index
                   else (renderBase event f).index } := by
  simp only [VideoEventFrameRenderer._render_frame]
  repeat' split
  all_goals simp_all [DetectedEvent.add_objects]

/-- C2: the key set of `render_all_frames` is exactly the event's
support; a frame with no stored record is rendered from a synthesized
record carrying that frame number; the event-level attributes are
prepended to every rendered record's attribute list; and the record's
label, confidence and index are overwritten with the aggregate's values
whenever the aggregate defines them. -/
theorem C2_render_all_frames (event : VideoEvent) (f : Nat) :
    ((lookupKey (VideoEventFrameRenderer.render_all_frames event) f).isSome
       ↔ f ∈ event.support) ∧
    (∀ d, lookupKey (VideoEventFrameRenderer.render_all_frames event) f = some d →
      d.attrs = event.attrs ++ (renderBase event f).attrs ∧
      (lookupKey event.frames f = none → d.frame_number = some f) ∧
      (∀ l, event.label = some l → d.label = some l) ∧
      (∀ c, event.confidence = some c → d.confidence = some c) ∧
      (∀ i, event.index = some i → d.index = some i)) := by
  constructor
  · rw [lookup_render_all]
    by_cases h : f ∈ event.support <;> simp [h]
  · intro d hd
    rw [lookup_render_all] at hd
    by_cases h : f ∈ event.support
    · rw [if_pos h] at hd
      injection hd with hd
      subst hd
      rw [render_frame_eq]
      refine ⟨?_, ?_, ?_, ?_, ?_⟩
      · simp [get_event_attrs_getD]
      · intro hnone
        simp [renderBase, hnone]
      · intro l hl
        simp [hl]
      · intro c hc
        simp [hc]
      · intro i hi
        simp [hi]
    · rw [if_neg h] at hd
      exact absurd hd (by simp)

/-- Witness for C2 on `exAggregate` (support `[1, 2, 3]`, one stored
record at frame 2): frame 1 is rendered, inherits the event attribute
ahead of the (empty) base attributes, and carries the aggregate's
label. -/
theorem C2_render_all_frames_witness :
    ((lookupKey (VideoEventFrameRenderer.render_all_frames exAggregate) 1).isSome
       ↔ 1 ∈ exAggregate.support) ∧
    exRendered1.attrs = exAggregate.attrs ++ (renderBase exAggregate 1).attrs ∧
    exRendered1.label = some "meeting" := by
  have h := C2_render_all_frames exAggregate 1
  have hd : lookupKey (VideoEventFrameRenderer.render_all_frames exAggregate) 1
      = some exRendered1 := by decide
  exact ⟨h.1, (h.2 exRendered1 hd).1, (h.2 exRendered1 hd).2.2.1 "meeting" rfl⟩

/-
C6: validate_subset_of_schema is reflexive and transitive.
-/

theorem acsSub_iff (s t : AttributeContainerSchema) :
    AttributeContainerSchema.validate_subset_of_schema s t = .ok () ↔
      ∀ p ∈ s, ∃ ws, lookupKey t p.1 = some ws ∧ ∀ v ∈ p.2, v ∈ ws := by
  rw [AttributeContainerSchema.validate_subset_of_schema]
  split
  · rename_i hall
    rw [List.all_eq_true] at hall
    constructor
    · intro _ p hp
      have hx := hall p hp
      cases hl : lookupKey t p.1 with
      | none => rw [hl] at hx; simp at hx
      | some ws =>
        rw [hl] at hx
        simp only [List.all_eq_true, decide_eq_true_eq] at hx
        exact ⟨ws, rfl, hx⟩
    · intro _
      rfl
  · rename_i hall
    constructor
    · intro h
      exact absurd h (by simp)
    · intro hforall
      exfalso
      apply hall
      rw [List.all_eq_true]
      intro p hp
      obtain ⟨ws, hws, hsub⟩ := hforall p hp
      rw [hws]
      simp only [List.all_eq_true, decide_eq_true_eq]
      exact hsub

theorem acsSub_refl (s : AttributeContainerSchema) (h : AttributeContainerSchema.WF s) :
    AttributeContainerSchema.validate_subset_of_schema s s = .ok () := by
  rw [acsSub_iff]
  intro p hp
  exact ⟨p.2, lookupKey_of_nodup_mem s p.1 p.2 h hp, fun v hv => hv⟩

theorem acsSub_trans (a b c : AttributeContainerSchema)
    (hab : AttributeContainerSchema.validate_subset_of_schema a b = .ok ())
    (hbc : AttributeContainerSchema.validate_subset_of_schema b c = .ok ()) :
    AttributeContainerSchema.validate_subset_of_schema a c = .ok () := by
  rw [acsSub_iff] at hab hbc ⊢
  intro p hp
  obtain ⟨ws, hws, hsub⟩ := hab p hp
  obtain ⟨us, hus, hsub2⟩ := hbc (p.1, ws) (lookupKey_mem b p.1 ws hws)
  exact ⟨us, hus, fun v hv => hsub2 v (hsub v hv)⟩

theorem objSub_iff (a b : ObjectSchema) :
    ObjectSchema.validate_subset_of_schema a b = .ok () ↔
      a.label = b.label ∧
      AttributeContainerSchema.validate_subset_of_schema a.attrs b.attrs = .ok () ∧
      AttributeContainerSchema.validate_subset_of_schema a.frames b.frames = .ok () := by
  rw [ObjectSchema.validate_subset_of_schema]
  by_cases hl : a.label = b.label
  · rw [if_pos hl]
    cases h1 : AttributeContainerSchema.validate_subset_of_schema a.attrs b.attrs with
    | error e => simp [hl, h1]
    | ok u =>
      cases u
      simp [hl, h1]
  · rw [if_neg hl]
    simp [hl]

theorem objSub_refl (a : ObjectSchema) (h : a.WF) :
    ObjectSchema.validate_subset_of_schema a a = .ok () := by
  rw [objSub_iff]
  exact ⟨rfl, acsSub_refl _ h.1, acsSub_refl _ h.2⟩

theorem objSub_trans (a b c : ObjectSchema)
    (hab : ObjectSchema.validate_subset_of_schema a b = .ok ())
    (hbc : ObjectSchema.validate_subset_of_schema b c = .ok ()) :
    ObjectSchema.validate_subset_of_schema a c = .ok () := by
  rw [objSub_iff] at hab hbc ⊢
  exact ⟨hab.1.trans hbc.1, acsSub_trans _ _ _ hab.2.1 hbc.2.1,
    acsSub_trans _ _ _ hab.2.2 hbc.2.2⟩

theorem ocsSub_iff (s t : ObjectContainerSchema) :
    ObjectContainerSchema.validate_subset_of_schema s t = .ok () ↔
      ∀ p ∈ s, ∃ ot, lookupKey t p.1 = some ot ∧
        ObjectSchema.validate_subset_of_schema p.2 ot = .ok () := by
  induction s with
  | nil => simp [ObjectContainerSchema.validate_subset_of_schema]
  | cons q rest ih =>
    obtain ⟨k, os⟩ := q
    rw [ObjectContainerSchema.validate_subset_of_schema]
    cases hl : lookupKey t k with
    | none =>
      constructor
      · intro h
        exact absurd h (by simp)
      · intro hforall
        obtain ⟨ot, hot, _⟩ := hforall (k, os) (List.mem_cons_self _ _)
        rw [hot] at hl
        exact absurd hl (by simp)
    | some ot =>
      cases h1 : ObjectSchema.validate_subset_of_schema os ot with
      | error e =>
        simp only [h1]
        constructor
        · intro h
          exact absurd h (by simp)
        · intro hforall
          obtain ⟨ot1, hot1, hsub1⟩ := hforall (k, os) (List.mem_cons_self _ _)
          rw [hl] at hot1
          injection hot1 with hot1
          subst hot1
          rw [h1] at hsub1
          exact absurd hsub1 (by simp)
      | ok u =>
        cases u
        simp only [h1]
        rw [ih]
        constructor
        · intro hforall p hp
          rcases List.mem_cons.mp hp with hp1 | hp1
          · subst hp1
            exact ⟨ot, hl, h1⟩
          · exact hforall p hp1
        · intro hforall p hp
          exact hforall p (List.mem_cons_of_mem _ hp)

theorem ocsSub_refl (s : ObjectContainerSchema) (h : ObjectContainerSchema.WF s) :
    ObjectContainerSchema.validate_subset_of_schema s s = .ok () := by
  rw [ocsSub_iff]
  intro p hp
  exact ⟨p.2, lookupKey_of_nodup_mem s p.1 p.2 h.1 hp, objSub_refl p.2 (h.2 p hp)⟩

theorem ocsSub_trans (a b c : ObjectContainerSchema)
    (hab : ObjectContainerSchema.validate_subset_of_schema a b = .ok ())
    (hbc : ObjectContainerSchema.validate_subset_of_schema b c = .ok ()) :
    ObjectContainerSchema.validate_subset_of_schema a c = .ok () := by
  rw [ocsSub_iff] at hab hbc ⊢
  intro p hp
  obtain ⟨ot, hot, hsub⟩ := hab p hp
  obtain ⟨ou, hou, hsub2⟩ := hbc (p.1, ot) (lookupKey_mem b p.1 ot hot)
  exact ⟨ou, hou, objSub_trans _ _ _ hsub hsub2⟩

theorem esSub_iff (s t : EventSchema) :
    s.validate_subset_of_schema t = .ok () ↔
      s.label = t.label ∧
      AttributeContainerSchema.validate_subset_of_schema s.attrs t.attrs = .ok () ∧
      AttributeContainerSchema.validate_subset_of_schema s.frames t.frames = .ok () ∧
      ObjectContainerSchema.validate_subset_of_schema s.objects t.objects = .ok () := by
  rw [EventSchema.validate_subset_of_schema]
  by_cases hl : s.label = t.label
  · rw [if_neg (by simp [hl])]
    cases h1 : AttributeContainerSchema.validate_subset_of_schema s.attrs t.attrs with
    | error e => simp [hl, h1]
    | ok u =>
      cases u
      cases h2 : AttributeContainerSchema.validate_subset_of_schema s.frames t.frames with
      | error e => simp [hl, h1, h2]
      | ok u =>
        cases u
        simp [hl, h1, h2]
  · rw [if_pos hl]
    simp [hl]

theorem esSub_refl (s : EventSchema) (h : s.WF) :
    s.validate_subset_of_schema s = .ok () := by
  rw [esSub_iff]
  exact ⟨rfl, acsSub_refl _ h.1, acsSub_refl _ h.2.1, ocsSub_refl _ h.2.2⟩

theorem esSub_trans (a b c : EventSchema)
    (hab : a.validate_subset_of_schema b = .ok ())
    (hbc : b.validate_subset_of_schema c = .ok ()) :
    a.validate_subset_of_schema c = .ok () := by
  rw [esSub_iff] at hab hbc ⊢
  exact ⟨hab.1.trans hbc.1, acsSub_trans _ _ _ hab.2.1 hbc.2.1,
    acsSub_trans _ _ _ hab.2.2.1 hbc.2.2.1, ocsSub_trans _ _ _ hab.2.2.2 hbc.2.2.2⟩

theorem subsetLoop_iff (l : List (Option String × EventSchema)) (d : EventContainerSchema) :
    subsetLoop l d = .ok () ↔
      ∀ p ∈ l, ∃ es1, lookupKey d.schema p.1 = some es1 ∧
        p.2.validate_subset_of_schema es1 = .ok () := by
  induction l with
  | nil => simp [subsetLoop]
  | cons q rest ih =>
    obtain ⟨k, es⟩ := q
    rw [subsetLoop]
    cases hl : lookupKey d.schema k with
    | none =>
      constructor
      · intro h
        exact absurd h (by simp)
      · intro hforall
        obtain ⟨es1, hes1, _⟩ := hforall (k, es) (List.mem_cons_self _ _)
        rw [hes1] at hl
        exact absurd hl (by simp)
    | some es1 =>
      cases h1 : es.validate_subset_of_schema es1 with
      | error e =>
        simp only [h1]
        constructor
        · intro h
          exact absurd h (by simp)
        · intro hforall
          obtain ⟨es2, hes2, hsub2⟩ := hforall (k, es) (List.mem_cons_self _ _)
          rw [hl] at hes2
          injection hes2 with hes2
          subst hes2
          rw [h1] at hsub2
          exact absurd hsub2 (by simp)
      | ok u =>
        cases u
        simp only [h1]
        rw [ih]
        constructor
        · intro hforall p hp
          rcases List.mem_cons.mp hp with hp1 | hp1
          · subst hp1
            exact ⟨es1, hl, h1⟩
          · exact hforall p hp1
        · intro hforall p hp
          exact hforall p (List.mem_cons_of_mem _ hp)

/-- C6: `validate_subset_of_schema` is reflexive (on well-formed schemas,
i.e. schemas whose dict keys are distinct, as every Python dict's are)
and transitive, for `EventSchema` and for `EventContainerSchema`. -/
theorem C6_subset_partial_order :
    (∀ s : EventSchema, s.WF → s.validate_subset_of_schema s = .ok ()) ∧
    (∀ a b c : EventSchema, a.validate_subset_of_schema b = .ok () →
      b.validate_subset_of_schema c = .ok () →
      a.validate_subset_of_schema c = .ok ()) ∧
    (∀ cs : EventContainerSchema, cs.WF → cs.validate_subset_of_schema cs = .ok ()) ∧
    (∀ a b c : EventContainerSchema, a.validate_subset_of_schema b = .ok () →
      b.validate_subset_of_schema c = .ok () →
      a.validate_subset_of_schema c = .ok ()) := by
  refine ⟨esSub_refl, esSub_trans, ?_, ?_⟩
  · intro cs h
    rw [EventContainerSchema.validate_subset_of_schema, subsetLoop_iff]
    intro p hp
    exact ⟨p.2, lookupKey_of_nodup_mem cs.schema p.1 p.2 h.1 hp, esSub_refl p.2 (h.2 p hp)⟩
  · intro a b c hab hbc
    rw [EventContainerSchema.validate_subset_of_schema, subsetLoop_iff] at hab hbc ⊢
    intro p hp
    obtain ⟨es1, hes1, hsub1⟩ := hab p hp
    obtain ⟨es2, hes2, hsub2⟩ := hbc (p.1, es1) (lookupKey_mem b.schema p.1 es1 hes1)
    exact ⟨es2, hes2, esSub_trans _ _ _ hsub1 hsub2⟩

/-- Witness for C6 on schemas built by progressively adding attributes:
reflexivity on `exSchemaB` and `exContSchemaB`, and transitivity through
the chain A is a subset of B is a subset of C. -/
theorem C6_subset_partial_order_witness :
    exSchemaB.validate_subset_of_schema exSchemaB = .ok () ∧
    exSchemaA.validate_subset_of_schema exSchemaC = .ok () ∧
    exContSchemaB.validate_subset_of_schema exContSchemaB = .ok () ∧
    exContSchemaA.validate_subset_of_schema exContSchemaC = .ok () := by
  exact ⟨C6_subset_partial_order.1 exSchemaB (by decide),
    C6_subset_partial_order.2.1 exSchemaA exSchemaB exSchemaC rfl rfl,
    C6_subset_partial_order.2.2.1 exContSchemaB (by decide),
    C6_subset_partial_order.2.2.2 exContSchemaA exContSchemaB exContSchemaC rfl rfl⟩

/-
C9: build_active_schema(C).validate(C) never fails.

The proof goes through the growth orders: every `add_*` enlarges the
schema, validation is monotone along growth, and everything just added
validates against the schema it was added to.
-/

theorem acsLe_refl (s : AttributeContainerSchema) : acsLe s s :=
  fun _ vs h => ⟨vs, h, fun _ hv => hv⟩

theorem acsLe_trans {a b c : AttributeContainerSchema}
    (hab : acsLe a b) (hbc : acsLe b c) : acsLe a c := by
  intro n vs h
  obtain ⟨ws, hws, h1⟩ := hab n vs h
  obtain ⟨us, hus, h2⟩ := hbc n ws hws
  exact ⟨us, hus, fun v hv => h2 v (h1 v hv)⟩

theorem lookupKey_addAttr_other (s : AttributeContainerSchema) (a : Attribute)
    (n : String) (h : n ≠ a.name) :
    lookupKey (AttributeContainerSchema.add_attribute s a) n = lookupKey s n := by
  induction s with
  | nil => simp [AttributeContainerSchema.add_attribute, lookupKey, Ne.symm h]
  | cons p rest ih =>
    obtain ⟨n1, vs1⟩ := p
    by_cases h1 : n1 = a.name
    · subst h1
      simp [AttributeContainerSchema.add_attribute, lookupKey, Ne.symm h]
    · simp [AttributeContainerSchema.add_attribute, h1, lookupKey, ih]

theorem lookupKey_addAttr_self (s : AttributeContainerSchema) (a : Attribute) :
    ∃ ws, lookupKey (AttributeContainerSchema.add_attribute s a) a.name = some ws ∧
      a.value ∈ ws ∧ ∀ vs, lookupKey s a.name = some vs → ∀ v ∈ vs, v ∈ ws := by
  induction s with
  | nil =>
    refine ⟨[a.value], ?_, List.mem_singleton_self _, ?_⟩
    · simp [AttributeContainerSchema.add_attribute, lookupKey]
    · intro vs h
      simp [lookupKey] at h
  | cons p rest ih =>
    obtain ⟨n1, vs1⟩ := p
    by_cases h1 : n1 = a.name
    · subst h1
      refine ⟨if a.value ∈ vs1 then vs1 else vs1 ++ [a.value], ?_, ?_, ?_⟩
      · simp [AttributeContainerSchema.add_attribute, lookupKey]
      · split
        · assumption
        · exact List.mem_append_right _ (List.mem_singleton_self _)
      · intro vs h
        rw [lookupKey] at h
        rw [if_pos rfl] at h
        injection h with h
        subst h
        intro v hv
        split
        · exact hv
        · exact List.mem_append_left _ hv
    · obtain ⟨ws, hws, hmem, hsub⟩ := ih
      refine ⟨ws, ?_, hmem, ?_⟩
      · simp [AttributeContainerSchema.add_attribute, h1, lookupKey, hws]
      · intro vs h
        rw [lookupKey, if_neg h1] at h
        exact hsub vs h

theorem addAttr_le (s : AttributeContainerSchema) (a : Attribute) :
    acsLe s (AttributeContainerSchema.add_attribute s a) := by
  intro n vs h
  by_cases hn : n = a.name
  · subst hn
    obtain ⟨ws, hws, _, hsub⟩ := lookupKey_addAttr_self s a
    exact ⟨ws, hws, hsub vs h⟩
  · exact ⟨vs, by rw [lookupKey_addAttr_other s a n hn]; exact h, fun v hv => hv⟩

theorem addAttrs_le (l : AttributeContainer) :
    ∀ s : AttributeContainerSchema, acsLe s (AttributeContainerSchema.add_attributes s l) := by
  induction l with
  | nil =>
    intro s
    exact acsLe_refl s
  | cons a rest ih =>
    intro s
    rw [AttributeContainerSchema.add_attributes, List.foldl_cons]
    exact acsLe_trans (addAttr_le s a) (ih (AttributeContainerSchema.add_attribute s a))

theorem validate_attribute_mono {s t : AttributeContainerSchema} (hle : acsLe s t)
    (a : Attribute) (h : AttributeContainerSchema.validate_attribute s a = .ok ()) :
    AttributeContainerSchema.validate_attribute t a = .ok () := by
  rw [AttributeContainerSchema.validate_attribute] at h ⊢
  cases hl : lookupKey s a.name with
  | none =>
    rw [hl] at h
    exact absurd h (by simp)
  | some vs =>
    simp only [hl] at h
    obtain ⟨ws, hws, hsub⟩ := hle a.name vs hl
    simp only [hws]
    by_cases hv : a.value ∈ vs
    · rw [if_pos (hsub a.value hv)]
    · rw [if_neg hv] at h
      exact absurd h (by simp)

theorem validate_attribute_addAttr_self (s : AttributeContainerSchema) (a : Attribute) :
    AttributeContainerSchema.validate_attribute (AttributeContainerSchema.add_attribute s a) a
      = .ok () := by
  obtain ⟨ws, hws, hmem, _⟩ := lookupKey_addAttr_self s a
  rw [AttributeContainerSchema.validate_attribute]
  simp only [hws]
  rw [if_pos hmem]

theorem acs_validate_iff (s : AttributeContainerSchema) (l : AttributeContainer) :
    AttributeContainerSchema.validate s l = .ok () ↔
      ∀ a ∈ l, AttributeContainerSchema.validate_attribute s a = .ok () := by
  induction l with
  | nil => simp [AttributeContainerSchema.validate]
  | cons a rest ih =>
    rw [AttributeContainerSchema.validate]
    cases h1 : AttributeContainerSchema.validate_attribute s a with
    | error e =>
      simp only [h1]
      constructor
      · intro h
        exact absurd h (by simp)
      · intro hforall
        have := hforall a (List.mem_cons_self _ _)
        rw [h1] at this
        exact absurd this (by simp)
    | ok u =>
      cases u
      simp only [h1]
      rw [ih]
      constructor
      · intro hforall b hb
        rcases List.mem_cons.mp hb with hb1 | hb1
        · subst hb1
          exact h1
        · exact hforall b hb1
      · intro hforall b hb
        exact hforall b (List.mem_cons_of_mem _ hb)

theorem acs_validate_mono {s t : AttributeContainerSchema} (hle : acsLe s t)
    (l : AttributeContainer) (h : AttributeContainerSchema.validate s l = .ok ()) :
    AttributeContainerSchema.validate t l = .ok () := by
  rw [acs_validate_iff] at h ⊢
  exact fun a ha => validate_attribute_mono hle a (h a ha)

theorem validate_attribute_addAttrs_mem (l : AttributeContainer) :
    ∀ (s : AttributeContainerSchema) (a : Attribute), a ∈ l →
      AttributeContainerSchema.validate_attribute
        (AttributeContainerSchema.add_attributes s l) a = .ok () := by
  induction l with
  | nil =>
    intro s a ha
    simp at ha
  | cons b rest ih =>
    intro s a ha
    rw [AttributeContainerSchema.add_attributes, List.foldl_cons]
    rcases List.mem_cons.mp ha with ha1 | ha1
    · subst ha1
      exact validate_attribute_mono (addAttrs_le rest _)
        a (validate_attribute_addAttr_self s a)
    · exact ih (AttributeContainerSchema.add_attribute s b) a ha1

theorem acs_validate_addAttrs_self (s : AttributeContainerSchema) (l : AttributeContainer) :
    AttributeContainerSchema.validate (AttributeContainerSchema.add_attributes s l) l
      = .ok () := by
  rw [acs_validate_iff]
  exact fun a ha => validate_attribute_addAttrs_mem l s a ha

theorem ocsLe_refl (s : ObjectContainerSchema) : ocsLe s s :=
  fun _ os h => ⟨os, h, acsLe_refl _⟩

theorem ocsLe_trans {a b c : ObjectContainerSchema}
    (hab : ocsLe a b) (hbc : ocsLe b c) : ocsLe a c := by
  intro k os h
  obtain ⟨ot, hot, h1⟩ := hab k os h
  obtain ⟨ou, hou, h2⟩ := hbc k ot hot
  exact ⟨ou, hou, acsLe_trans h1 h2⟩

theorem lookupKey_addObject_other (s : ObjectContainerSchema) (o : DetectedObject)
    (k : Option String) (h : k ≠ o.label) :
    lookupKey (ObjectContainerSchema.add_object s o) k = lookupKey s k := by
  rw [ObjectContainerSchema.add_object]
  by_cases hp : (lookupKey s o.label).isSome
  · rw [if_pos hp]
    exact lookupKey_modifyKey_other s o.label k _ h
  · rw [if_neg hp]
    rw [lookupKey_modifyKey_other _ o.label k _ h]
    by_cases hk : lookupKey s k = none
    · rw [lookupKey_append_none _ _ _ hk, hk]
      simp [lookupKey, Ne.symm h]
    · cases hx : lookupKey s k with
      | none => exact absurd hx hk
      | some os => exact lookupKey_append_left _ _ _ _ hx

theorem lookupKey_addObject_self (s : ObjectContainerSchema) (o : DetectedObject) :
    lookupKey (ObjectContainerSchema.add_object s o) o.label
      = some (let os0 := (lookupKey s o.label).getD { label := o.label }
              { os0 with frames := AttributeContainerSchema.add_attributes os0.frames o.attrs }) := by
  rw [ObjectContainerSchema.add_object]
  cases hx : lookupKey s o.label with
  | some os0 =>
    rw [if_pos (show (some os0).isSome = true from rfl)]
    rw [lookupKey_modifyKey_self, hx]
    rfl
  | none =>
    rw [if_neg (show ¬(none : Option ObjectSchema).isSome = true by simp)]
    rw [lookupKey_modifyKey_self, lookupKey_append_none _ _ _ hx]
    simp [lookupKey]

theorem addObject_le (s : ObjectContainerSchema) (o : DetectedObject) :
    ocsLe s (ObjectContainerSchema.add_object s o) := by
  intro k os h
  by_cases hk : k = o.label
  · subst hk
    rw [lookupKey_addObject_self s o]
    refine ⟨_, rfl, ?_⟩
    rw [h]
    exact addAttrs_le o.attrs os.frames
  · exact ⟨os, by rw [lookupKey_addObject_other s o k hk]; exact h, acsLe_refl _⟩

theorem addObjects_le (l : DetectedObjectContainer) :
    ∀ s : ObjectContainerSchema, ocsLe s (ObjectContainerSchema.add_objects s l) := by
  induction l with
  | nil =>
    intro s
    exact ocsLe_refl s
  | cons o rest ih =>
    intro s
    rw [ObjectContainerSchema.add_objects]
    exact ocsLe_trans (addObject_le s o) (ih (ObjectContainerSchema.add_object s o))

theorem validate_object_mono {s t : ObjectContainerSchema} (hle : ocsLe s t)
    (o : DetectedObject) (h : ObjectContainerSchema.validate_object s o = .ok ()) :
    ObjectContainerSchema.validate_object t o = .ok () := by
  rw [ObjectContainerSchema.validate_object] at h ⊢
  cases hl : lookupKey s o.label with
  | none =>
    rw [hl] at h
    exact absurd h (by simp)
  | some os =>
    simp only [hl] at h
    obtain ⟨ot, hot, hsub⟩ := hle o.label os hl
    simp only [hot]
    exact acs_validate_mono hsub o.attrs h

theorem validate_object_addObject_self (s : ObjectContainerSchema) (o : DetectedObject) :
    ObjectContainerSchema.validate_object (ObjectContainerSchema.add_object s o) o = .ok () := by
  rw [ObjectContainerSchema.validate_object]
  simp only [lookupKey_addObject_self s o]
  exact acs_validate_addAttrs_self _ o.attrs

theorem validateObjList_iff (s : ObjectContainerSchema) (l : DetectedObjectContainer) :
    validateObjList s l = .ok () ↔
      ∀ o ∈ l, ObjectContainerSchema.validate_object s o = .ok () := by
  induction l with
  | nil => simp [validateObjList]
  | cons o rest ih =>
    rw [validateObjList]
    cases h1 : ObjectContainerSchema.validate_object s o with
    | error e =>
      simp only [h1]
      constructor
      · intro h
        exact absurd h (by simp)
      · intro hforall
        have := hforall o (List.mem_cons_self _ _)
        rw [h1] at this
        exact absurd this (by simp)
    | ok u =>
      cases u
      simp only [h1]
      rw [ih]
      constructor
      · intro hforall b hb
        rcases List.mem_cons.mp hb with hb1 | hb1
        · subst hb1
          exact h1
        · exact hforall b hb1
      · intro hforall b hb
        exact hforall b (List.mem_cons_of_mem _ hb)

theorem validate_object_addObjects_mem (l : DetectedObjectContainer) :
    ∀ (s : ObjectContainerSchema) (o : DetectedObject), o ∈ l →
      ObjectContainerSchema.validate_object (ObjectContainerSchema.add_objects s l) o
        = .ok () := by
  induction l with
  | nil =>
    intro s o ho
    simp at ho
  | cons b rest ih =>
    intro s o ho
    rw [ObjectContainerSchema.add_objects]
    rcases List.mem_cons.mp ho with ho1 | ho1
    · subst ho1
      exact validate_object_mono (addObjects_le rest _) o (validate_object_addObject_self s o)
    · exact ih (ObjectContainerSchema.add_object s b) o ho1

theorem esLe_refl (s : EventSchema) : esLe s s :=
  ⟨rfl, acsLe_refl _, acsLe_refl _, ocsLe_refl _⟩

theorem esLe_trans {a b c : EventSchema} (hab : esLe a b) (hbc : esLe b c) : esLe a c :=
  ⟨hab.1.trans hbc.1, acsLe_trans hab.2.1 hbc.2.1, acsLe_trans hab.2.2.1 hbc.2.2.1,
    ocsLe_trans hab.2.2.2 hbc.2.2.2⟩

theorem core_le (s : EventSchema) (de : DetectedEvent) :
    esLe s (s._add_detected_event_core de) :=
  ⟨rfl, acsLe_refl _, addAttrs_le de.attrs s.frames, addObjects_le de.objects s.objects⟩

theorem foldCore_le (l : List DetectedEvent) :
    ∀ s : EventSchema, esLe s (l.foldl EventSchema._add_detected_event_core s) := by
  induction l with
  | nil =>
    intro s
    exact esLe_refl s
  | cons de rest ih =>
    intro s
    rw [List.foldl_cons]
    exact esLe_trans (core_le s de) (ih _)

theorem foldCore_label (l : List DetectedEvent) :
    ∀ s : EventSchema,
      (l.foldl EventSchema._add_detected_event_core s).label = s.label := by
  induction l with
  | nil =>
    intro s
    rfl
  | cons de rest ih =>
    intro s
    rw [List.foldl_cons]
    exact ih _

theorem foldCore_attrs (l : List DetectedEvent) :
    ∀ s : EventSchema,
      (l.foldl EventSchema._add_detected_event_core s).attrs = s.attrs := by
  induction l with
  | nil =>
    intro s
    rfl
  | cons de rest ih =>
    intro s
    rw [List.foldl_cons]
    exact ih _

theorem validate_det_false_iff (s : EventSchema) (de : DetectedEvent) :
    s._validate_detected_event de false = .ok () ↔
      (AttributeContainerSchema.validate s.frames de.attrs = .ok () ∧
       validateObjList s.objects de.objects = .ok ()) := by
  rw [EventSchema._validate_detected_event]
  rw [if_neg (by simp)]
  cases h1 : AttributeContainerSchema.validate s.frames de.attrs with
  | error e => simp [h1]
  | ok u =>
    cases u
    simp [h1]

theorem validate_det_true_iff (s : EventSchema) (de : DetectedEvent) :
    s._validate_detected_event de true = .ok () ↔
      (de.label = s.label ∧ s._validate_detected_event de false = .ok ()) := by
  by_cases hl : de.label = s.label
  · constructor
    · intro h
      refine ⟨hl, ?_⟩
      rw [EventSchema._validate_detected_event] at h
      rw [if_neg (by simp [hl])] at h
      rw [EventSchema._validate_detected_event]
      rw [if_neg (by simp)]
      exact h
    · intro hp
      rw [EventSchema._validate_detected_event]
      rw [if_neg (by simp [hl])]
      have h := hp.2
      rw [EventSchema._validate_detected_event] at h
      rw [if_neg (by simp)] at h
      exact h
  · constructor
    · intro h
      rw [EventSchema._validate_detected_event] at h
      rw [if_pos ⟨rfl, hl⟩] at h
      exact absurd h (by simp)
    · intro hp
      exact absurd hp.1 hl

theorem validate_det_false_mono {s t : EventSchema} (hle : esLe s t) (de : DetectedEvent)
    (h : s._validate_detected_event de false = .ok ()) :
    t._validate_detected_event de false = .ok () := by
  rw [validate_det_false_iff] at h ⊢
  refine ⟨acs_validate_mono hle.2.2.1 de.attrs h.1, ?_⟩
  rw [validateObjList_iff]
  exact fun o ho =>
    validate_object_mono hle.2.2.2 o ((validateObjList_iff s.objects de.objects).mp h.2 o ho)

theorem validate_det_core_self (s : EventSchema) (de : DetectedEvent) :
    (s._add_detected_event_core de)._validate_detected_event de false = .ok () := by
  rw [validate_det_false_iff]
  constructor
  · exact acs_validate_addAttrs_self s.frames de.attrs
  · rw [validateObjList_iff]
    exact fun o ho => validate_object_addObjects_mem de.objects s.objects o ho

theorem foldCore_valid_mem (l : List DetectedEvent) :
    ∀ (s : EventSchema) (de : DetectedEvent), de ∈ l →
      (l.foldl EventSchema._add_detected_event_core s)._validate_detected_event de false
        = .ok () := by
  induction l with
  | nil =>
    intro s de h
    simp at h
  | cons b rest ih =>
    intro s de h
    rw [List.foldl_cons]
    rcases List.mem_cons.mp h with h1 | h1
    · subst h1
      exact validate_det_false_mono (foldCore_le rest _) de (validate_det_core_self s de)
    · exact ih _ de h1

theorem validateDetList_iff (s : EventSchema) (l : List DetectedEvent) :
    s.validateDetList l = .ok () ↔
      ∀ de ∈ l, s._validate_detected_event de false = .ok () := by
  induction l with
  | nil => simp [EventSchema.validateDetList]
  | cons de rest ih =>
    rw [EventSchema.validateDetList]
    cases h1 : s._validate_detected_event de false with
    | error e =>
      simp only [h1]
      constructor
      · intro h
        exact absurd h (by simp)
      · intro hforall
        have := hforall de (List.mem_cons_self _ _)
        rw [h1] at this
        exact absurd this (by simp)
    | ok u =>
      cases u
      simp only [h1]
      rw [ih]
      constructor
      · intro hforall b hb
        rcases List.mem_cons.mp hb with hb1 | hb1
        · subst hb1
          exact h1
        · exact hforall b hb1
      · intro hforall b hb
        exact hforall b (List.mem_cons_of_mem _ hb)

theorem validate_vid_iff (s : EventSchema) (ve : VideoEvent) :
    s._validate_video_event ve = .ok () ↔
      (ve.label = s.label ∧
       AttributeContainerSchema.validate s.attrs ve.attrs = .ok () ∧
       s.validateDetList ve.iter_detections = .ok ()) := by
  rw [EventSchema._validate_video_event]
  by_cases hl : ve.label = s.label
  · rw [if_neg (by simp [hl])]
    cases h1 : AttributeContainerSchema.validate s.attrs ve.attrs with
    | error e => simp [hl, h1]
    | ok u =>
      cases u
      simp [hl, h1]
  · rw [if_pos hl]
    simp [hl]

theorem es_validate_mono {s t : EventSchema} (hle : esLe s t) (e : EventLike)
    (h : s.validate e = .ok ()) : t.validate e = .ok () := by
  cases e with
  | det de =>
    simp only [EventSchema.validate] at h ⊢
    rw [validate_det_true_iff] at h ⊢
    exact ⟨h.1.trans hle.1, validate_det_false_mono hle de h.2⟩
  | vid ve =>
    simp only [EventSchema.validate] at h ⊢
    rw [validate_vid_iff] at h ⊢
    obtain ⟨h1, h2, h3⟩ := h
    refine ⟨h1.trans hle.1, acs_validate_mono hle.2.1 ve.attrs h2, ?_⟩
    rw [validateDetList_iff] at h3 ⊢
    exact fun de hde => validate_det_false_mono hle de (h3 de hde)

theorem es_add_event_det_char (s : EventSchema) (de : DetectedEvent) (s1 : EventSchema)
    (h : s.add_event (.det de) = .ok s1) :
    de.label = s.label ∧ s1 = s._add_detected_event_core de := by
  simp only [EventSchema.add_event] at h
  rw [EventSchema._add_detected_event] at h
  by_cases hl : de.label = s.label
  · rw [if_neg (by simp [hl])] at h
    injection h with h
    exact ⟨hl, h.symm⟩
  · rw [if_pos ⟨rfl, hl⟩] at h
    exact absurd h (by simp)

theorem es_add_event_vid_char (s : EventSchema) (ve : VideoEvent) (s1 : EventSchema)
    (h : s.add_event (.vid ve) = .ok s1) :
    ve.label = s.label ∧
    s1 = ve.iter_detections.foldl EventSchema._add_detected_event_core
      { s with attrs := AttributeContainerSchema.add_attributes s.attrs ve.attrs } := by
  simp only [EventSchema.add_event] at h
  rw [EventSchema._add_video_event] at h
  by_cases hl : ve.label = s.label
  · rw [if_neg (by simp [hl])] at h
    injection h with h
    exact ⟨hl, h.symm⟩
  · rw [if_pos hl] at h
    exact absurd h (by simp)

theorem es_add_event_label_eq (s : EventSchema) (e : EventLike) (s1 : EventSchema)
    (h : s.add_event e = .ok s1) : s1.label = s.label := by
  cases e with
  | det de =>
    rw [(es_add_event_det_char s de s1 h).2]
    rfl
  | vid ve =>
    rw [(es_add_event_vid_char s ve s1 h).2, foldCore_label]

theorem es_add_event_le (s : EventSchema) (e : EventLike) (s1 : EventSchema)
    (h : s.add_event e = .ok s1) : esLe s s1 := by
  cases e with
  | det de =>
    rw [(es_add_event_det_char s de s1 h).2]
    exact core_le s de
  | vid ve =>
    rw [(es_add_event_vid_char s ve s1 h).2]
    refine esLe_trans ?_ (foldCore_le _ _)
    exact ⟨rfl, addAttrs_le ve.attrs s.attrs, acsLe_refl _, ocsLe_refl _⟩

theorem es_add_event_self_valid (s : EventSchema) (e : EventLike) (s1 : EventSchema)
    (h : s.add_event e = .ok s1) : s1.validate e = .ok () := by
  cases e with
  | det de =>
    obtain ⟨hl, hs1⟩ := es_add_event_det_char s de s1 h
    subst hs1
    simp only [EventSchema.validate]
    rw [validate_det_true_iff]
    exact ⟨hl, validate_det_core_self s de⟩
  | vid ve =>
    obtain ⟨hl, hs1⟩ := es_add_event_vid_char s ve s1 h
    subst hs1
    simp only [EventSchema.validate]
    rw [validate_vid_iff]
    refine ⟨?_, ?_, ?_⟩
    · rw [foldCore_label]
      exact hl
    · rw [foldCore_attrs]
      exact acs_validate_addAttrs_self s.attrs ve.attrs
    · rw [validateDetList_iff]
      exact fun de hde => foldCore_valid_mem ve.iter_detections _ de hde

theorem ecsLe_refl (c : EventContainerSchema) : ecsLe c c :=
  fun _ es h => ⟨es, h, esLe_refl es⟩

theorem ecsLe_trans {a b c : EventContainerSchema}
    (hab : ecsLe a b) (hbc : ecsLe b c) : ecsLe a c := by
  intro k es h
  obtain ⟨es1, hes1, h1⟩ := hab k es h
  obtain ⟨es2, hes2, h2⟩ := hbc k es1 hes1
  exact ⟨es2, hes2, esLe_trans h1 h2⟩

theorem lookup_ensure_self (c : EventContainerSchema) (l : Option String) :
    lookupKey (c._ensure_has_event_label l).schema l
      = some ((lookupKey c.schema l).getD { label := l }) := by
  rw [EventContainerSchema._ensure_has_event_label]
  by_cases hp : c.has_event_label l = true
  · rw [if_pos hp]
    rw [EventContainerSchema.has_event_label] at hp
    cases hx : lookupKey c.schema l with
    | none =>
      rw [hx] at hp
      simp at hp
    | some es => rfl
  · rw [if_neg hp]
    rw [EventContainerSchema.has_event_label] at hp
    have hnone : lookupKey c.schema l = none := by
      cases hx : lookupKey c.schema l with
      | none => rfl
      | some es =>
        rw [hx] at hp
        simp at hp
    show lookupKey (c.schema ++ [(l, { label := l })]) l = _
    rw [lookupKey_append_none _ _ _ hnone, hnone]
    simp [lookupKey]

theorem lookup_ensure_other (c : EventContainerSchema) (l k : Option String)
    (h : k ≠ l) :
    lookupKey (c._ensure_has_event_label l).schema k = lookupKey c.schema k := by
  rw [EventContainerSchema._ensure_has_event_label]
  by_cases hp : c.has_event_label l = true
  · rw [if_pos hp]
  · rw [if_neg hp]
    show lookupKey (c.schema ++ [(l, { label := l })]) k = _
    cases hx : lookupKey c.schema k with
    | some es => exact lookupKey_append_left _ _ _ _ hx
    | none =>
      rw [lookupKey_append_none _ _ _ hx]
      simp [lookupKey, Ne.symm h]

theorem ecs_add_event_ok_char (c : EventContainerSchema) (e : EventLike)
    (c1 : EventContainerSchema) (h : c.add_event e = .ok c1) :
    ∃ es1, ((lookupKey c.schema e.label).getD { label := e.label }).add_event e = .ok es1 ∧
      c1 = { schema := setKey (c._ensure_has_event_label e.label).schema e.label es1 } := by
  rw [EventContainerSchema.add_event] at h
  simp only [lookup_ensure_self, Option.getD_some] at h
  cases hx : ((lookupKey c.schema e.label).getD { label := e.label }).add_event e with
  | error p =>
    rw [hx] at h
    exact absurd h (by simp)
  | ok es1 =>
    rw [hx] at h
    injection h with h
    exact ⟨es1, rfl, h.symm⟩

theorem ecs_add_event_le (c : EventContainerSchema) (e : EventLike)
    (c1 : EventContainerSchema) (h : c.add_event e = .ok c1) : ecsLe c c1 := by
  obtain ⟨es1, hadd, hc1⟩ := ecs_add_event_ok_char c e c1 h
  subst hc1
  intro k es hk
  by_cases hke : k = e.label
  · subst hke
    rw [lookupKey_setKey_self]
    refine ⟨es1, rfl, ?_⟩
    rw [hk] at hadd
    exact es_add_event_le es e es1 hadd
  · rw [lookupKey_setKey_other _ _ _ _ hke, lookup_ensure_other c e.label k hke]
    exact ⟨es, hk, esLe_refl es⟩

theorem ecs_add_event_self_valid (c : EventContainerSchema) (e : EventLike)
    (c1 : EventContainerSchema) (h : c.add_event e = .ok c1) :
    c1.validate_event e = .ok () := by
  obtain ⟨es1, hadd, hc1⟩ := ecs_add_event_ok_char c e c1 h
  subst hc1
  rw [EventContainerSchema.validate_event]
  simp only [lookupKey_setKey_self]
  exact es_add_event_self_valid _ e es1 hadd

theorem ecs_validate_event_mono {c d : EventContainerSchema} (hle : ecsLe c d)
    (e : EventLike) (h : c.validate_event e = .ok ()) :
    d.validate_event e = .ok () := by
  rw [EventContainerSchema.validate_event] at h ⊢
  cases hx : lookupKey c.schema e.label with
  | none =>
    rw [hx] at h
    exact absurd h (by simp)
  | some es =>
    simp only [hx] at h
    obtain ⟨es1, hes1, hle1⟩ := hle e.label es hx
    simp only [hes1]
    exact es_validate_mono hle1 e h

theorem ecs_add_event_total (c : EventContainerSchema) (e : EventLike)
    (hc : c.labelsConsistent) :
    ∃ c1, c.add_event e = .ok c1 ∧ c1.labelsConsistent := by
  have hes : ((lookupKey c.schema e.label).getD { label := e.label }).label = e.label := by
    cases hx : lookupKey c.schema e.label with
    | none => rfl
    | some es => exact hc e.label es hx
  have hok : ∃ es1,
      ((lookupKey c.schema e.label).getD { label := e.label }).add_event e = .ok es1 := by
    cases e with
    | det de =>
      simp only [EventSchema.add_event]
      rw [EventSchema._add_detected_event]
      rw [if_neg (by simp only [EventLike.label] at hes ⊢; simp [hes])]
      exact ⟨_, rfl⟩
    | vid ve =>
      simp only [EventSchema.add_event]
      rw [EventSchema._add_video_event]
      rw [if_neg (by simp only [EventLike.label] at hes ⊢; simp [hes])]
      exact ⟨_, rfl⟩
  obtain ⟨es1, hes1⟩ := hok
  have hstep : c.add_event e
      = .ok { schema := setKey (c._ensure_has_event_label e.label).schema e.label es1 } := by
    rw [EventContainerSchema.add_event]
    simp only [lookup_ensure_self, Option.getD_some]
    rw [hes1]
  refine ⟨_, hstep, ?_⟩
  intro k es2 hk
  by_cases hke : k = e.label
  · subst hke
    rw [lookupKey_setKey_self] at hk
    injection hk with hk
    subst hk
    rw [es_add_event_label_eq _ e _ hes1, hes]
  · rw [lookupKey_setKey_other _ _ _ _ hke, lookup_ensure_other c e.label k hke] at hk
    exact hc k es2 hk

theorem ecs_add_events_all (l : List EventLike) :
    ∀ c : EventContainerSchema, c.labelsConsistent →
      ∃ c1, c.add_events l = .ok c1 ∧ c1.labelsConsistent ∧ ecsLe c c1 ∧
        ∀ e ∈ l, c1.validate_event e = .ok () := by
  induction l with
  | nil =>
    intro c hc
    refine ⟨c, ?_, hc, ecsLe_refl c, ?_⟩
    · rw [EventContainerSchema.add_events]
    · intro e he
      simp at he
  | cons e rest ih =>
    intro c hc
    obtain ⟨c2, hok2, hc2⟩ := ecs_add_event_total c e hc
    obtain ⟨c1, hok1, hc1, hle1, hall⟩ := ih c2 hc2
    refine ⟨c1, ?_, hc1, ecsLe_trans (ecs_add_event_le c e c2 hok2) hle1, ?_⟩
    · rw [EventContainerSchema.add_events, hok2]
      exact hok1
    · intro e1 he1
      rcases List.mem_cons.mp he1 with h1 | h1
      · subst h1
        exact ecs_validate_event_mono hle1 e1 (ecs_add_event_self_valid c e1 c2 hok2)
      · exact hall e1 h1

theorem ecs_validate_iff (c : EventContainerSchema) (l : List EventLike) :
    c.validate l = .ok () ↔ ∀ e ∈ l, c.validate_event e = .ok () := by
  induction l with
  | nil => simp [EventContainerSchema.validate]
  | cons e rest ih =>
    rw [EventContainerSchema.validate]
    cases h1 : c.validate_event e with
    | error err =>
      simp only [h1]
      constructor
      · intro h
        exact absurd h (by simp)
      · intro hforall
        have := hforall e (List.mem_cons_self _ _)
        rw [h1] at this
        exact absurd this (by simp)
    | ok u =>
      cases u
      simp only [h1]
      rw [ih]
      constructor
      · intro hforall b hb
        rcases List.mem_cons.mp hb with hb1 | hb1
        · subst hb1
          exact h1
        · exact hforall b hb1
      · intro hforall b hb
        exact hforall b (List.mem_cons_of_mem _ hb)

/-- C9: for every container of events (frame-scoped or temporal, in any
mix), the schema inferred from it validates it —
`build_active_schema(C).validate(C)` never fails. -/
theorem C9_active_schema_round_trip (events : List EventLike) :
    ∃ c, EventContainerSchema.build_active_schema events = .ok c ∧
      c.validate events = .ok () := by
  obtain ⟨c1, hok, _, _, hall⟩ := ecs_add_events_all events { schema := [] }
    (by intro k es h; simp [lookupKey] at h)
  exact ⟨c1, hok, (ecs_validate_iff c1 events).mpr hall⟩

end Eta
